import Mathlib

/-!
Verification of the four-stage security-event pipeline (normalization,
feature aggregation, signal detection, incident correlation).

Each definition below is a shallow embedding of a function of the
repository, translated from the Python source file named in its doc
comment.  Timestamps are modelled as seconds (Int), SQL numeric values
as Int where the source only ever stores counts and as Rat where the
source divides (averages, scores).  The relational store is modelled as
Lean lists of rows; SQL INSERT ... ON CONFLICT clauses become explicit
insert-if-absent or upsert functions on those lists.
-/

/-! ## String utilities shared by the embeddings -/

namespace Py

/-- Split a character list at the first occurrence of a needle:
the text before it and the text after it. -/
def splitFirst (needle : List Char) (hay : List Char) : Option (List Char × List Char) :=
  match hay with
  | [] => if needle = [] then some ([], []) else none
  | c :: rest =>
    if needle.isPrefixOf (c :: rest) then some ([], (c :: rest).drop needle.length)
    else (splitFirst needle rest).map (fun p => (c :: p.1, p.2))

/-- Substring containment, the Python `in` operator on strings. -/
def containsSub (needle hay : String) : Bool :=
  (splitFirst needle.data hay.data).isSome

/-- The text after the first occurrence of a needle, when present. -/
def afterFirst (needle hay : String) : Option (List Char) :=
  (splitFirst needle.data hay.data).map (fun p => p.2)

end Py

/-! ## Checkpoint store (services/worker/worker/detections.py) -/

namespace Detections

/-- Shallow model of the detection_checkpoints table: an association list
from job_name to last_window_end (seconds). -/
abbrev CheckpointStore := List (String × Int)

/-- Embeds get_checkpoint (detections.py, lines 21-27): SELECT
last_window_end FROM detection_checkpoints WHERE job_name = given name. -/
def get_checkpoint (cps : CheckpointStore) (job : String) : Option Int :=
  (cps.find? (fun p => p.1 = job)).map (fun p => p.2)

/-- Embeds update_checkpoint (detections.py, lines 29-38): INSERT ...
ON CONFLICT (job_name) DO UPDATE SET last_window_end =
GREATEST(existing.last_window_end, EXCLUDED.last_window_end). -/
def update_checkpoint (cps : CheckpointStore) (job : String) (windowEnd : Int) :
    CheckpointStore :=
  if cps.any (fun p => p.1 = job) then
    cps.map (fun p => if p.1 = job then (p.1, max p.2 windowEnd) else p)
  else
    cps ++ [(job, windowEnd)]

/-- Embeds the checkpoint handling of run_detections (detections.py,
lines 149-218): the window start is the stored checkpoint, or now minus
LOOKBACK_MINUTES (60) on a first run; if start_time is at or past
end_time = now the run exits without touching the checkpoint, otherwise
it processes the window and stores end_time. -/
def run_detections_checkpoint (cps : CheckpointStore) (now : Int) : CheckpointStore :=
  let checkpoint := get_checkpoint cps "detections_main"
  let start_time :=
    match checkpoint with
    | none => now - 60 * 60
    | some c => c
  if start_time ≥ now then cps
  else update_checkpoint cps "detections_main" now

end Detections

/-! ## Auth-failure spike detector (services/worker/worker/build_signals.py) -/

namespace BuildSignals

/-- Shallow model of one features_timeseries row, with the columns the
spike query reads. -/
structure FeatureRow where
  bin_start : Int
  bin_size_sec : Int
  feature_name : String
  entity_type : String
  entity_id : String
  value : Rat
  deriving DecidableEq, Repr

/-- Rows of the current window of the spike SQL (build_signals.py,
lines 54-61): feature_name = auth_fail_count, entity_type = host,
bin_size_sec = 60, bin_start > feature_now - 1 hour, for one entity. -/
def currentRows (fs : List FeatureRow) (featureNow : Int) (e : String) :
    List FeatureRow :=
  fs.filter (fun r =>
    r.feature_name = "auth_fail_count" && r.entity_type = "host" &&
    r.bin_size_sec = 60 && decide (r.bin_start > featureNow - 3600) &&
    r.entity_id = e)

/-- Rows of the baseline window of the spike SQL (build_signals.py,
lines 63-72): same filters with feature_now - 7 hours < bin_start and
bin_start <= feature_now - 1 hour. -/
def baselineRows (fs : List FeatureRow) (featureNow : Int) (e : String) :
    List FeatureRow :=
  fs.filter (fun r =>
    r.feature_name = "auth_fail_count" && r.entity_type = "host" &&
    r.bin_size_sec = 60 && decide (r.bin_start > featureNow - 25200) &&
    decide (r.bin_start ≤ featureNow - 3600) && r.entity_id = e)

/-- The per-entity current-window sum, sum(value) of the current CTE. -/
def currentSum (fs : List FeatureRow) (featureNow : Int) (e : String) : Rat :=
  ((currentRows fs featureNow e).map (fun r => r.value)).sum

/-- The per-entity baseline average, avg(value) of the baseline CTE;
COALESCE(b.baseline_avg, 0) of the LEFT JOIN makes it 0 when the entity
has no baseline rows. -/
def baselineAvg (fs : List FeatureRow) (featureNow : Int) (e : String) : Rat :=
  let rows := baselineRows fs featureNow e
  if rows.isEmpty then 0
  else ((rows.map (fun r => r.value)).sum) / (rows.length : Rat)

/-- The entities of the current_window CTE: entities grouped by
entity_id, present only when they have at least one current-window row. -/
def currentEntities (fs : List FeatureRow) (featureNow : Int) : List String :=
  ((fs.filter (fun r =>
    r.feature_name = "auth_fail_count" && r.entity_type = "host" &&
    r.bin_size_sec = 60 && decide (r.bin_start > featureNow - 3600))).map
      (fun r => r.entity_id)).dedup

/-- Embeds the WHERE clause of the spike query (build_signals.py, lines
80-82): c.current_sum >= 5 AND c.current_sum > COALESCE(baseline_avg, 0)
* 3 + 5. -/
def spikeCondition (currentSumV baselineAvgV : Rat) : Prop :=
  5 ≤ currentSumV ∧ baselineAvgV * 3 + 5 < currentSumV

instance (c b : Rat) : Decidable (spikeCondition c b) := by
  unfold spikeCondition; infer_instance

/-- Embeds the spike detection of build_signals (build_signals.py, lines
44-107): the entities for which an auth_fail_spike signal row is
generated. -/
def authFailSpikeEntities (fs : List FeatureRow) (featureNow : Int) :
    List String :=
  (currentEntities fs featureNow).filter
    (fun e => decide (spikeCondition (currentSum fs featureNow e)
      (baselineAvg fs featureNow e)))

end BuildSignals

/-! ## Incident correlator (services/worker/worker/correlate.py) -/

namespace Correlate

/-- Incident status domain, per the incidents table and the query
status IN (NEW, ACTIVE). -/
inductive Status where
  | NEW
  | ACTIVE
  | CLOSED
  deriving DecidableEq, Repr

/-- Shallow model of one incidents row. -/
structure Incident where
  id : Nat
  title : String
  status : Status
  severity : Int
  score : Rat
  root_entity_type : String
  root_entity_id : String
  start_time : Int
  end_time : Int
  last_update_time : Int
  deriving DecidableEq, Repr

/-- Shallow model of one unprocessed signal_events row as fetched by
correlate_signals (correlate.py, lines 22-28). -/
structure Signal where
  id : Nat
  signal_name : String
  entity_type : String
  entity_id : String
  severity : Int
  score : Rat
  window_start : Int
  window_end : Int
  deriving DecidableEq, Repr

/-- State touched by the correlator: the incidents table, the
incident_evidence junction rows (incident_id, signal_id), and the next
incident id the database would assign. -/
structure CorrState where
  incidents : List Incident
  evidence : List (Nat × Nat)
  nextId : Nat
  deriving DecidableEq, Repr

/-- Embeds the candidate WHERE clause (correlate.py, lines 57-66): same
root entity, status NEW or ACTIVE, last_update_time >= timestamp - 30
minutes, start_time >= timestamp - 4 hours, where timestamp is the
window_end of the signal. -/
def matchesIncident (sig : Signal) (i : Incident) : Prop :=
  i.root_entity_type = sig.entity_type ∧
  i.root_entity_id = sig.entity_id ∧
  (i.status = Status.NEW ∨ i.status = Status.ACTIVE) ∧
  sig.window_end - 30 * 60 ≤ i.last_update_time ∧
  sig.window_end - 4 * 3600 ≤ i.start_time

instance (sig : Signal) (i : Incident) : Decidable (matchesIncident sig i) := by
  unfold matchesIncident; infer_instance

/-- Embeds ORDER BY last_update_time DESC LIMIT 1 over the matching
incidents: the most recently updated match, none when no row matches. -/
def findCandidate (incidents : List Incident) (sig : Signal) : Option Incident :=
  (incidents.filter (fun i => decide (matchesIncident sig i))).foldl
    (fun acc i =>
      match acc with
      | none => some i
      | some j => if j.last_update_time < i.last_update_time then some i else some j)
    none

/-- Evidence linking (correlate.py, lines 74-78): INSERT INTO
incident_evidence ... ON CONFLICT (incident_id, signal_id) DO NOTHING. -/
def insertEvidence (ev : List (Nat × Nat)) (incidentId sigId : Nat) :
    List (Nat × Nat) :=
  if (incidentId, sigId) ∈ ev then ev else ev ++ [(incidentId, sigId)]

/-- The attach-path UPDATE (correlate.py, lines 81-89): last_update_time
and end_time become GREATEST with the signal timestamp, severity becomes
GREATEST with the signal severity, and score grows by
LEAST(signal score, 50). -/
def attachUpdate (sig : Signal) (i : Incident) : Incident :=
  { i with
    last_update_time := max i.last_update_time sig.window_end
    end_time := max i.end_time sig.window_end
    severity := max i.severity sig.severity
    score := i.score + min sig.score 50 }

/-- The create-path INSERT (correlate.py, lines 92-106): a new incident
with status NEW, severity and score taken from the signal, time bounds
from the signal window. -/
def newIncident (sig : Signal) (nid : Nat) : Incident :=
  { id := nid
    title := sig.signal_name ++ " on " ++ sig.entity_id
    status := Status.NEW
    severity := sig.severity
    score := sig.score
    root_entity_type := sig.entity_type
    root_entity_id := sig.entity_id
    start_time := sig.window_start
    end_time := sig.window_end
    last_update_time := sig.window_end }

/-- Embeds the per-signal body of correlate_signals (correlate.py, lines
43-114): attach to the candidate incident when one exists, otherwise
create a new incident, linking the signal as evidence either way. -/
def processSignal (st : CorrState) (sig : Signal) : CorrState :=
  match findCandidate st.incidents sig with
  | some cand =>
      { st with
        evidence := insertEvidence st.evidence cand.id sig.id
        incidents := st.incidents.map
          (fun i => if i.id = cand.id then attachUpdate sig i else i) }
  | none =>
      { st with
        incidents := st.incidents ++ [newIncident sig st.nextId]
        evidence := st.evidence ++ [(st.nextId, sig.id)]
        nextId := st.nextId + 1 }

/-- Embeds the batch loop of correlate_signals over the fetched
unprocessed signals, in ascending window_end order. -/
def correlate_signals (st : CorrState) (sigs : List Signal) : CorrState :=
  sigs.foldl processSignal st

end Correlate

/-! ## Hash primitives (hashlib.sha1 / hashlib.md5 as used by the source) -/

namespace Hashes

/-- Left-rotate a 32-bit word. -/
def rotl32 (n x : Nat) : Nat :=
  ((x <<< n) ||| (x >>> (32 - n))) % 4294967296

/-- UTF-8 encoding of one character, as bytes (models str.encode). -/
def utf8Bytes (c : Char) : List Nat :=
  let n := c.toNat
  if n < 128 then [n]
  else if n < 2048 then [192 + n / 64, 128 + n % 64]
  else if n < 65536 then [224 + n / 4096, 128 + (n / 64) % 64, 128 + n % 64]
  else [240 + n / 262144, 128 + (n / 4096) % 64, 128 + (n / 64) % 64, 128 + n % 64]

/-- UTF-8 bytes of a string. -/
def strBytes (s : String) : List Nat :=
  (s.data.map utf8Bytes).flatten

/-- Big-endian byte rendering of n over k bytes. -/
def toBytesBE (k n : Nat) : List Nat :=
  (List.range k).map (fun i => (n >>> (8 * (k - 1 - i))) % 256)

/-- Little-endian byte rendering of n over k bytes. -/
def toBytesLE (k n : Nat) : List Nat :=
  (List.range k).map (fun i => (n >>> (8 * i)) % 256)

/-- Merkle-Damgard padding: 0x80, zeros, then the 64-bit bit length,
rendered big-endian (SHA-1) or little-endian (MD5). -/
def padMessage (bigEndianLen : Bool) (msg : List Nat) : List Nat :=
  let zeros := (64 - ((msg.length + 9) % 64)) % 64
  let lenBytes :=
    if bigEndianLen then toBytesBE 8 (msg.length * 8) else toBytesLE 8 (msg.length * 8)
  msg ++ [128] ++ List.replicate zeros 0 ++ lenBytes

/-- The sixteen 32-bit big-endian words of a 64-byte chunk. -/
def wordsBE (chunk : List Nat) : List Nat :=
  (List.range 16).map (fun i =>
    (chunk.getD (4 * i) 0) <<< 24 + (chunk.getD (4 * i + 1) 0) <<< 16 +
    (chunk.getD (4 * i + 2) 0) <<< 8 + chunk.getD (4 * i + 3) 0)

/-- The sixteen 32-bit little-endian words of a 64-byte chunk. -/
def wordsLE (chunk : List Nat) : List Nat :=
  (List.range 16).map (fun i =>
    (chunk.getD (4 * i + 3) 0) <<< 24 + (chunk.getD (4 * i + 2) 0) <<< 16 +
    (chunk.getD (4 * i + 1) 0) <<< 8 + chunk.getD (4 * i) 0)

/-- SHA-1 message-schedule extension from 16 to 80 words. -/
def sha1Extend (ws : List Nat) : List Nat :=
  (List.range 64).foldl
    (fun acc _ =>
      let i := acc.length
      acc ++ [rotl32 1 ((acc.getD (i - 3) 0) ^^^ (acc.getD (i - 8) 0) ^^^
        (acc.getD (i - 14) 0) ^^^ (acc.getD (i - 16) 0))])
    ws

/-- SHA-1 round function and constant for round i. -/
def sha1FK (i b c d : Nat) : Nat × Nat :=
  if i < 20 then ((b &&& c) ||| ((b ^^^ 4294967295) &&& d), 1518500249)
  else if i < 40 then (b ^^^ c ^^^ d, 1859775393)
  else if i < 60 then ((b &&& c) ||| (b &&& d) ||| (c &&& d), 2400959708)
  else (b ^^^ c ^^^ d, 3395469782)

/-- One SHA-1 compression over a 64-byte chunk. -/
def sha1Compress (h : Nat × Nat × Nat × Nat × Nat) (chunk : List Nat) :
    Nat × Nat × Nat × Nat × Nat :=
  let ws := sha1Extend (wordsBE chunk)
  let (h0, h1, h2, h3, h4) := h
  let st := (List.range 80).foldl
    (fun (st : Nat × Nat × Nat × Nat × Nat) i =>
      let (a, b, c, d, e) := st
      let (f, k) := sha1FK i b c d
      let temp := (rotl32 5 a + f + e + k + ws.getD i 0) % 4294967296
      (temp, a, rotl32 30 b, c, d))
    (h0, h1, h2, h3, h4)
  let (a, b, c, d, e) := st
  ((h0 + a) % 4294967296, (h1 + b) % 4294967296, (h2 + c) % 4294967296,
   (h3 + d) % 4294967296, (h4 + e) % 4294967296)

/-- Fold a compression function over the 64-byte chunks of a padded
message. -/
def foldChunks (compress : α → List Nat → α) (st : α) (msg : List Nat) : α :=
  if h : msg.isEmpty then st
  else
    have hne : msg ≠ [] := by
      intro hcontra
      subst hcontra
      simp at h
    have : (msg.drop 64).length < msg.length := by
      rw [List.length_drop]
      have hlen : 0 < msg.length := List.length_pos.mpr hne
      omega
    foldChunks compress (compress st (msg.take 64)) (msg.drop 64)
termination_by msg.length

/-- Hex digit characters. -/
def hexDigit (n : Nat) : Char :=
  if n < 10 then Char.ofNat (48 + n)
  else if n < 16 then Char.ofNat (87 + n)
  else '0'

/-- Hex rendering of a byte list. -/
def bytesToHex (bs : List Nat) : String :=
  String.mk ((bs.map (fun b => [hexDigit (b / 16), hexDigit (b % 16)])).flatten)

/-- hashlib.sha1(s.encode(utf-8)).hexdigest(). -/
def sha1Hex (s : String) : String :=
  let msg := padMessage true (strBytes s)
  let (h0, h1, h2, h3, h4) :=
    foldChunks sha1Compress (1732584193, 4023233417, 2562383102, 271733878, 3285377520) msg
  bytesToHex (toBytesBE 4 h0 ++ toBytesBE 4 h1 ++ toBytesBE 4 h2 ++
    toBytesBE 4 h3 ++ toBytesBE 4 h4)

/-- The 64 MD5 sine-table constants (RFC 1321). -/
def md5K : List Nat :=
  [3614090360, 3905402710, 606105819, 3250441966,
   4118548399, 1200080426, 2821735955, 4249261313,
   1770035416, 2336552879, 4294925233, 2304563134,
   1804603682, 4254626195, 2792965006, 1236535329,
   4129170786, 3225465664, 643717713, 3921069994,
   3593408605, 38016083, 3634488961, 3889429448,
   568446438, 3275163606, 4107603335, 1163531501,
   2850285829, 4243563512, 1735328473, 2368359562,
   4294588738, 2272392833, 1839030562, 4259657740,
   2763975236, 1272893353, 4139469664, 3200236656,
   681279174, 3936430074, 3572445317, 76029189,
   3654602809, 3873151461, 530742520, 3299628645,
   4096336452, 1126891415, 2878612391, 4237533241,
   1700485571, 2399980690, 4293915773, 2240044497,
   1873313359, 4264355552, 2734768916, 1309151649,
   4149444226, 3174756917, 718787259, 3951481745]

/-- The per-round MD5 left-rotation amounts. -/
def md5S : List Nat :=
  [7, 12, 17, 22, 7, 12, 17, 22, 7, 12, 17, 22, 7, 12, 17, 22,
   5, 9, 14, 20, 5, 9, 14, 20, 5, 9, 14, 20, 5, 9, 14, 20,
   4, 11, 16, 23, 4, 11, 16, 23, 4, 11, 16, 23, 4, 11, 16, 23,
   6, 10, 15, 21, 6, 10, 15, 21, 6, 10, 15, 21, 6, 10, 15, 21]

/-- MD5 round mixing function and message index for round i. -/
def md5FG (i b c d : Nat) : Nat × Nat :=
  if i < 16 then ((b &&& c) ||| ((b ^^^ 4294967295) &&& d), i)
  else if i < 32 then ((d &&& b) ||| ((d ^^^ 4294967295) &&& c), (5 * i + 1) % 16)
  else if i < 48 then (b ^^^ c ^^^ d, (3 * i + 5) % 16)
  else (c ^^^ (b ||| (d ^^^ 4294967295)), (7 * i) % 16)

/-- One MD5 compression over a 64-byte chunk. -/
def md5Compress (h : Nat × Nat × Nat × Nat) (chunk : List Nat) :
    Nat × Nat × Nat × Nat :=
  let ws := wordsLE chunk
  let (h0, h1, h2, h3) := h
  let st := (List.range 64).foldl
    (fun (st : Nat × Nat × Nat × Nat) i =>
      let (a, b, c, d) := st
      let (f, g) := md5FG i b c d
      let tmp := (f + a + md5K.getD i 0 + ws.getD g 0) % 4294967296
      (d, (b + rotl32 (md5S.getD i 0) tmp) % 4294967296, b, c))
    (h0, h1, h2, h3)
  let (a, b, c, d) := st
  ((h0 + a) % 4294967296, (h1 + b) % 4294967296, (h2 + c) % 4294967296,
   (h3 + d) % 4294967296)

/-- hashlib.md5(s.encode(utf-8)).hexdigest(). -/
def md5Hex (s : String) : String :=
  let msg := padMessage false (strBytes s)
  let (h0, h1, h2, h3) :=
    foldChunks md5Compress (1732584193, 4023233417, 2562383102, 271733878) msg
  bytesToHex (toBytesLE 4 h0 ++ toBytesLE 4 h1 ++ toBytesLE 4 h2 ++ toBytesLE 4 h3)

/-- hashlib.md5(...).hexdigest()[:8], the short grouping hash the
normalizer derives rule ids with. -/
def md5Hex8 (s : String) : String :=
  String.mk ((md5Hex s).data.take 8)

end Hashes

/-! ## Signal insertion and dedupe keys (services/worker/worker/detections.py) -/

namespace Detections

/-- A signal dict as built by detect_spikes / detect_raw_alerts
(detections.py, lines 72-89 and 117-145). -/
structure PendingSignal where
  signal_name : String
  entity_type : String
  entity_id : String
  severity : Int
  score : Rat
  window_start : Int
  window_end : Int
  deriving DecidableEq, Repr

/-- A stored signal_events row, with the columns the insert writes
(metadata is carried opaquely by the store and plays no role in
dedup, so it is not modelled). -/
structure SignalRow where
  window_start : Int
  window_end : Int
  signal_name : String
  entity_type : String
  entity_id : String
  severity : Int
  score : Rat
  dedupe_key : String
  deriving DecidableEq, Repr

/-- Embeds generate_dedupe_key (detections.py, lines 40-42):
sha1 of signal_name, entity_type, entity_id and the rendered
window_end joined with pipes. -/
def generate_dedupe_key (signal_name entity_type entity_id window_end_iso : String) :
    String :=
  Hashes.sha1Hex (signal_name ++ "|" ++ entity_type ++ "|" ++ entity_id ++ "|" ++
    window_end_iso)

/-- The window_end rendering used when building the key
(datetime.isoformat): an injective rendering of the timestamp; equal
timestamps give equal strings, which is all the insert logic depends
on. -/
def isoOfTime (t : Int) : String := toString t

/-- One row of the VALUES list of the signal INSERT (detections.py,
lines 186-202). -/
def toRow (s : PendingSignal) : SignalRow :=
  { window_start := s.window_start
    window_end := s.window_end
    signal_name := s.signal_name
    entity_type := s.entity_type
    entity_id := s.entity_id
    severity := s.severity
    score := s.score
    dedupe_key := generate_dedupe_key s.signal_name s.entity_type s.entity_id
      (isoOfTime s.window_end) }

/-- INSERT INTO signal_events ... ON CONFLICT (dedupe_key) DO NOTHING
(detections.py, lines 204-211), one value row at a time in order. -/
def insertSignal (store : List SignalRow) (s : PendingSignal) : List SignalRow :=
  let row := toRow s
  if store.any (fun r => r.dedupe_key = row.dedupe_key) then store
  else store ++ [row]

/-- The whole batched insert of run_detections over the generated
signal list. -/
def insertSignals (store : List SignalRow) (sigs : List PendingSignal) :
    List SignalRow :=
  sigs.foldl insertSignal store

/-- Number of stored rows carrying a given
(signal_name, entity_type, entity_id, window_end) combination. -/
def countQuad (store : List SignalRow) (n t i : String) (w : Int) : Nat :=
  (store.filter (fun r =>
    r.signal_name = n && r.entity_type = t && r.entity_id = i &&
    r.window_end = w)).length

/-- Well-formedness of the store: every row carries the dedupe key the
insert path derives from its own four fields (true of every row the
pipeline ever writes). -/
def WfStore (store : List SignalRow) : Prop :=
  ∀ r ∈ store, r.dedupe_key =
    generate_dedupe_key r.signal_name r.entity_type r.entity_id (isoOfTime r.window_end)

instance (store : List SignalRow) : Decidable (WfStore store) := by
  unfold WfStore; infer_instance

end Detections

/-! ## Feature rollup (services/worker/worker/features.py) -/

namespace Features

/-- The columns of normalized_events the aggregation queries read. -/
structure NEvent where
  event_time : Int
  vendor : String
  event_kind : String
  host : Option String
  src_ip : Option String
  username : Option String
  rule_id : Option String
  signature : Option String
  severity : Option Int
  http_status : Option Int
  http_path : Option String
  deriving DecidableEq, Repr

/-- One features_timeseries row as written by rollup_features. -/
structure FRow where
  bin_start : Int
  bin_size_sec : Int
  vendor : String
  feature_name : String
  entity_type : String
  entity_id : String
  secondary_type : String
  secondary_id : String
  value : Int
  n_events : Int
  deriving DecidableEq, Repr

/-- date_trunc(minute, event_time) over epoch seconds. -/
def truncMinute (t : Int) : Int := (t.fdiv 60) * 60

/-- One aggregation query of rollup_features, in the data-driven shape
the queries share: a row predicate, the grouped entity and secondary
keys, and the constant columns. -/
structure AggRule where
  feature_name : String
  entity_type : String
  secondary_type : String
  pred : NEvent → Bool
  entityId : NEvent → String
  secondaryId : NEvent → String
  deriving Inhabited

/-- string_agg(distinct vendor) of a group, rendered in first-seen
order (the SQL leaves the order unspecified; the upsert never updates
this column, so nothing downstream depends on it). -/
def vendorAgg (grp : List NEvent) : String :=
  String.intercalate "," ((grp.map (fun e => e.vendor)).dedup)

/-- The grouped SELECT of one aggregation query (features.py, queries at
lines 47-240): filter by the predicate and the trailing lookback
window, group by (bin_start, entity_id, secondary_id), count rows. -/
def computeRows (rule : AggRule) (lookbackStart : Int) (evs : List NEvent) :
    List FRow :=
  let sel := evs.filter (fun e => rule.pred e && decide (e.event_time > lookbackStart))
  let keys := (sel.map (fun e =>
    (truncMinute e.event_time, rule.entityId e, rule.secondaryId e))).dedup
  keys.map (fun k =>
    let grp := sel.filter (fun e =>
      truncMinute e.event_time = k.1 && rule.entityId e = k.2.1 &&
      rule.secondaryId e = k.2.2)
    { bin_start := k.1
      bin_size_sec := 60
      vendor := vendorAgg grp
      feature_name := rule.feature_name
      entity_type := rule.entity_type
      entity_id := k.2.1
      secondary_type := rule.secondary_type
      secondary_id := k.2.2
      value := grp.length
      n_events := grp.length })

/-- The ON CONFLICT key of the features upsert (features.py, line 280):
(bin_start, bin_size_sec, feature_name, entity_type, entity_id,
secondary_id). -/
def conflictKey (r : FRow) : Int × Int × String × String × String × String :=
  (r.bin_start, r.bin_size_sec, r.feature_name, r.entity_type, r.entity_id,
   r.secondary_id)

/-- INSERT ... ON CONFLICT DO UPDATE SET value = EXCLUDED.value,
n_events = EXCLUDED.n_events (features.py, lines 274-287): overwrite
semantics, one value row at a time. -/
def upsertRow (store : List FRow) (r : FRow) : List FRow :=
  if store.any (fun x => conflictKey x = conflictKey r) then
    store.map (fun x =>
      if conflictKey x = conflictKey r then
        { x with value := r.value, n_events := r.n_events }
      else x)
  else store ++ [r]

/-- The per-query execute_values upsert loop of rollup_features. -/
def upsertRows (store : List FRow) (rows : List FRow) : List FRow :=
  rows.foldl upsertRow store

/-- Embeds the feature-bucket part of rollup_features (features.py,
lines 24-288): each query in turn computes its grouped rows over the
lookback window and upserts them. -/
def rollup_features (store : List FRow) (rules : List AggRule)
    (lookbackStart : Int) (evs : List NEvent) : List FRow :=
  rules.foldl (fun st rule => upsertRows st (computeRows rule lookbackStart evs)) store

/-- The stored value at a conflict key. -/
def valueAt (store : List FRow) (k : Int × Int × String × String × String × String) :
    Option Int :=
  (store.find? (fun r => conflictKey r = k)).map (fun r => r.value)

/-- ILIKE percent-contains-percent: case-insensitive substring test. -/
def ilikeContains (pat : String) (v : Option String) : Bool :=
  match v with
  | none => false
  | some s =>
    (Py.splitFirst (pat.data.map Char.toLower) (s.data.map Char.toLower)).isSome

/-- The suspicious-signature list of the bad_event_count query
(features.py, lines 159-162). -/
def suspicious_sigs : List String :=
  ["ET TROJAN", "ET MALWARE", "ET POLICY", "ET INFO External IP",
   "Wazuh: Critical", "Auth Failure"]

/-- Query 1, auth_fail_count by host (features.py, lines 47-62). -/
def authFailHostRule : AggRule :=
  { feature_name := "auth_fail_count"
    entity_type := "host"
    secondary_type := "-"
    pred := fun e => e.rule_id = some "4625"
    entityId := fun e => e.host.getD "unknown"
    secondaryId := fun _ => "-" }

/-- Query 1b, auth_success_count by host (features.py, lines 65-80). -/
def authSuccessHostRule : AggRule :=
  { feature_name := "auth_success_count"
    entity_type := "host"
    secondary_type := "-"
    pred := fun e => e.rule_id = some "4624"
    entityId := fun e => e.host.getD "unknown"
    secondaryId := fun _ => "-" }

/-- Query 2, auth_fail_count by user (features.py, lines 83-99). -/
def authFailUserRule : AggRule :=
  { feature_name := "auth_fail_count"
    entity_type := "user"
    secondary_type := "-"
    pred := fun e => e.rule_id = some "4625" && e.username.isSome
    entityId := fun e => e.username.getD "unknown"
    secondaryId := fun _ => "-" }

/-- Query 3, src_ip_fail_count by host and source ip (features.py,
lines 102-118). -/
def srcIpFailRule : AggRule :=
  { feature_name := "src_ip_fail_count"
    entity_type := "host"
    secondary_type := "src_ip"
    pred := fun e => e.rule_id = some "4625" && e.src_ip.isSome
    entityId := fun e => e.host.getD "unknown"
    secondaryId := fun e => e.src_ip.getD "unknown" }

/-- Query 4, wazuh_alert_count by host (features.py, lines 121-136). -/
def wazuhAlertRule : AggRule :=
  { feature_name := "wazuh_alert_count"
    entity_type := "host"
    secondary_type := "-"
    pred := fun e => e.vendor = "wazuh"
    entityId := fun e => e.host.getD "unknown"
    secondaryId := fun _ => "-" }

/-- Query 5, juiceshop_error_count by endpoint (features.py, lines
139-155). -/
def juiceshopErrorRule : AggRule :=
  { feature_name := "juiceshop_error_count"
    entity_type := "endpoint"
    secondary_type := "-"
    pred := fun e => e.vendor = "juiceshop" &&
      (decide (400 ≤ e.http_status.getD (-1)) || e.event_kind = "alert")
    entityId := fun e => e.http_path.getD "unknown"
    secondaryId := fun _ => "-" }

/-- Query 8, bad_event_count by host (features.py, lines 157-185):
COALESCE(severity, 0) >= 5 OR COALESCE(http_status, 0) >= 400 OR a
suspicious-signature ILIKE match. -/
def badEventRule : AggRule :=
  { feature_name := "bad_event_count"
    entity_type := "host"
    secondary_type := "-"
    pred := fun e => decide (5 ≤ e.severity.getD 0) ||
      decide (400 ≤ e.http_status.getD 0) ||
      suspicious_sigs.any (fun p => ilikeContains p e.signature)
    entityId := fun e => e.host.getD "unknown"
    secondaryId := fun _ => "-" }

/-- Query 9, zenarmor_allowed_count by host (features.py, lines
188-204). -/
def zenarmorAllowedRule : AggRule :=
  { feature_name := "zenarmor_allowed_count"
    entity_type := "host"
    secondary_type := "-"
    pred := fun e => e.vendor = "opnsense" &&
      (ilikeContains "allowed" e.signature || ilikeContains "zenarmor:allowed" e.signature)
    entityId := fun e => e.host.getD "unknown"
    secondaryId := fun _ => "-" }

/-- Query 6, signature_count by host and signature (features.py, lines
207-222). -/
def signatureCountRule : AggRule :=
  { feature_name := "signature_count"
    entity_type := "host"
    secondary_type := "signature"
    pred := fun e => e.signature.isSome
    entityId := fun e => e.host.getD "unknown"
    secondaryId := fun e => e.signature.getD "unknown" }

/-- Query 7, src_ip_count by host and source ip (features.py, lines
225-240). -/
def srcIpCountRule : AggRule :=
  { feature_name := "src_ip_count"
    entity_type := "host"
    secondary_type := "src_ip"
    pred := fun e => e.src_ip.isSome
    entityId := fun e => e.host.getD "unknown"
    secondaryId := fun e => e.src_ip.getD "unknown" }

/-- All nine aggregation queries, in the order the source appends them
to the queries list. -/
def allRules : List AggRule :=
  [authFailHostRule, authSuccessHostRule, authFailUserRule, srcIpFailRule,
   wazuhAlertRule, juiceshopErrorRule, badEventRule, zenarmorAllowedRule,
   signatureCountRule, srcIpCountRule]

end Features

/-! ## Normalizer (services/worker/worker/normalize.py)

The raw payload column is JSON, so raw_json is modelled as a JSON value
tree; Python dict lookups, truthiness, str() rendering and int()
coercion are modelled explicitly.  Statements the source evaluates that
can raise (attribute lookups on non-dicts, regex searches on
non-strings, str methods on non-strings) are modelled in the Except
monad, mirroring where the interpreter would raise. -/

namespace Normalize

/-- A JSON value as psycopg2 hands it to the worker (floats do not occur
in the payloads the pipeline stores and are not modelled). -/
inductive JVal where
  | null
  | bool (b : Bool)
  | num (n : Int)
  | str (s : String)
  | arr (xs : List JVal)
  | obj (fields : List (String × JVal))
  deriving Repr

mutual

/-- Structural equality test for JSON values. -/
def beqJ : JVal → JVal → Bool
  | .null, .null => true
  | .bool a, .bool b => a == b
  | .num a, .num b => a == b
  | .str a, .str b => a == b
  | .arr a, .arr b => beqJList a b
  | .obj a, .obj b => beqJFields a b
  | _, _ => false

/-- Elementwise equality test for JSON arrays. -/
def beqJList : List JVal → List JVal → Bool
  | [], [] => true
  | a :: as1, b :: bs => beqJ a b && beqJList as1 bs
  | _, _ => false

/-- Pairwise equality test for JSON objects. -/
def beqJFields : List (String × JVal) → List (String × JVal) → Bool
  | [], [] => true
  | (k1, v1) :: as1, (k2, v2) :: bs => k1 == k2 && beqJ v1 v2 && beqJFields as1 bs
  | _, _ => false

end

instance : BEq JVal := ⟨beqJ⟩

/-- Python truthiness of a JSON value. -/
def pyTruthy : JVal → Bool
  | .null => false
  | .bool b => b
  | .num n => n != 0
  | .str s => s != ""
  | .arr xs => !xs.isEmpty
  | .obj fs => !fs.isEmpty

/-- The Python `or` operator over JSON values. -/
def pyOr (a b : JVal) : JVal := if pyTruthy a then a else b

/-- dict lookup returning the raw value when the key is present. -/
def jlookup (fs : List (String × JVal)) (k : String) : Option JVal :=
  (fs.find? (fun p => p.1 = k)).map (fun p => p.2)

/-- dict.get(k): None when absent. -/
def jgetD (fs : List (String × JVal)) (k : String) : JVal :=
  (jlookup fs k).getD .null

/-- v.get(k) on an arbitrary value: AttributeError unless v is a dict. -/
def jgetE (v : JVal) (k : String) : Except String JVal :=
  match v with
  | .obj fs => .ok (jgetD fs k)
  | _ => .error "AttributeError"

/-- The Python `in` operator on an arbitrary value: key membership for
dicts, element membership for lists, substring for strings, TypeError
otherwise. -/
def pyInE (k : String) (v : JVal) : Except String Bool :=
  match v with
  | .obj fs => .ok (fs.any (fun p => p.1 = k))
  | .arr xs => .ok (xs.contains (.str k))
  | .str s => .ok (Py.containsSub k s)
  | _ => .error "TypeError"

/-- Python whitespace, the set str.strip removes. -/
def isWs (c : Char) : Bool :=
  c = ' ' || c = '\t' || c = '\n' || c = '\r' || c = '\x0b' || c = '\x0c'

/-- Drop trailing whitespace characters. -/
def dropTrailingWs : List Char → List Char
  | [] => []
  | c :: cs =>
    let rest := dropTrailingWs cs
    if rest.isEmpty && isWs c then [] else c :: rest

/-- str.strip on the character list. -/
def trimChars (cs : List Char) : List Char :=
  dropTrailingWs (cs.dropWhile isWs)

/-- str.strip. -/
def trimStr (s : String) : String := String.mk (trimChars s.data)

/-- str.lower (ASCII, which is all the compared tokens use). -/
def lowerStr (s : String) : String := String.mk (s.data.map Char.toLower)

/-- str.upper (ASCII). -/
def upperStr (s : String) : String := String.mk (s.data.map Char.toUpper)

/-- Numeric value of a digit run. -/
def digitsVal (ds : List Char) : Nat :=
  ds.foldl (fun a c => a * 10 + (c.toNat - 48)) 0

/-- int(...) over a trimmed character list: optional sign then at least
one digit.  (Python additionally accepts digit-group underscores; such
inputs make the model return none where Python parses, which only
steers the model into the conservative 0 fallback.) -/
def pyIntChars (cs : List Char) : Option Int :=
  match cs with
  | [] => none
  | c :: ds =>
    if c = '-' then
      (if !ds.isEmpty && ds.all Char.isDigit then some (-(digitsVal ds : Int)) else none)
    else if c = '+' then
      (if !ds.isEmpty && ds.all Char.isDigit then some ((digitsVal ds : Int)) else none)
    else
      (if (c :: ds).all Char.isDigit then some ((digitsVal (c :: ds) : Int)) else none)

/-- int(s) on a string: strips whitespace first. -/
def pyIntOfString (s : String) : Option Int :=
  pyIntChars (trimChars s.data)

/-- int(v) on a JSON value: ints pass through, bools coerce to 0/1,
numeric strings parse, everything else raises (modelled as none, which
every caller treats as the except branch). -/
def pyIntOfJVal : JVal → Option Int
  | .num n => some n
  | .bool b => some (if b then 1 else 0)
  | .str s => pyIntOfString s
  | _ => none

/-- An apostrophe character, for the str() rendering of containers. -/
def squote : Char := Char.ofNat 39

mutual

/-- Python str() of a JSON value. -/
def pyStr : JVal → String
  | .null => "None"
  | .bool b => if b then "True" else "False"
  | .num n => toString n
  | .str s => s
  | .arr xs => "[" ++ pyStrList xs ++ "]"
  | .obj fs => "\x7b" ++ pyStrFields fs ++ "\x7d"

/-- Comma-joined repr items of a list. -/
def pyStrList : List JVal → String
  | [] => ""
  | [x] => pyReprItem x
  | x :: xs => pyReprItem x ++ ", " ++ pyStrList xs

/-- Comma-joined repr items of a dict. -/
def pyStrFields : List (String × JVal) → String
  | [] => ""
  | [(k, v)] =>
    String.singleton squote ++ k ++ String.singleton squote ++ ": " ++ pyReprItem v
  | (k, v) :: fs =>
    String.singleton squote ++ k ++ String.singleton squote ++ ": " ++ pyReprItem v ++
      ", " ++ pyStrFields fs

/-- repr() of a container element: strings gain quotes. -/
def pyReprItem : JVal → String
  | .str s => String.singleton squote ++ s ++ String.singleton squote
  | v => pyStr v

end

mutual

/-- The recursive-descent core of json.loads, fuel bounded, over the
JSON subset the pipeline payloads use (strings without escapes,
integers, booleans, null, arrays, objects).  Inputs outside the subset
fail to parse, which callers treat as the json.loads except branch. -/
def parseJVal : Nat → List Char → Option (JVal × List Char)
  | 0, _ => none
  | fuel + 1, cs =>
    match cs.dropWhile isWs with
    | '"' :: rest =>
      let body := rest.takeWhile (fun c => c != '"')
      (match rest.drop body.length with
       | '"' :: rest2 => some (.str (String.mk body), rest2)
       | _ => none)
    | 't' :: 'r' :: 'u' :: 'e' :: rest => some (.bool true, rest)
    | 'f' :: 'a' :: 'l' :: 's' :: 'e' :: rest => some (.bool false, rest)
    | 'n' :: 'u' :: 'l' :: 'l' :: rest => some (.null, rest)
    | '[' :: rest => parseArrItems fuel rest
    | '\x7b' :: rest => parseObjItems fuel rest
    | '-' :: rest =>
      let ds := rest.takeWhile Char.isDigit
      if ds.isEmpty then none
      else some (.num (-(digitsVal ds : Int)), rest.drop ds.length)
    | c :: rest =>
      if c.isDigit then
        let ds := (c :: rest).takeWhile Char.isDigit
        some (.num (digitsVal ds : Int), (c :: rest).drop ds.length)
      else none
    | [] => none

/-- Array items after the opening bracket. -/
def parseArrItems : Nat → List Char → Option (JVal × List Char)
  | 0, _ => none
  | fuel + 1, cs =>
    match cs.dropWhile isWs with
    | ']' :: rest => some (.arr [], rest)
    | cs2 =>
      (parseJVal fuel cs2).bind (fun p =>
        parseArrRest fuel [p.1] p.2)

/-- Remaining array items, comma separated. -/
def parseArrRest : Nat → List JVal → List Char → Option (JVal × List Char)
  | 0, _, _ => none
  | fuel + 1, acc, cs =>
    match cs.dropWhile isWs with
    | ',' :: rest =>
      (parseJVal fuel rest).bind (fun p => parseArrRest fuel (acc ++ [p.1]) p.2)
    | ']' :: rest => some (.arr acc, rest)
    | _ => none

/-- Object items after the opening brace. -/
def parseObjItems : Nat → List Char → Option (JVal × List Char)
  | 0, _ => none
  | fuel + 1, cs =>
    match cs.dropWhile isWs with
    | '\x7d' :: rest => some (.obj [], rest)
    | cs2 =>
      (parseObjPair fuel cs2).bind (fun p =>
        parseObjRest fuel [p.1] p.2)

/-- Remaining object pairs, comma separated. -/
def parseObjRest : Nat → List (String × JVal) → List Char →
    Option (JVal × List Char)
  | 0, _, _ => none
  | fuel + 1, acc, cs =>
    match cs.dropWhile isWs with
    | ',' :: rest =>
      (parseObjPair fuel rest).bind (fun p => parseObjRest fuel (acc ++ [p.1]) p.2)
    | '\x7d' :: rest => some (.obj acc, rest)
    | _ => none

/-- One key-value pair of an object. -/
def parseObjPair : Nat → List Char → Option ((String × JVal) × List Char)
  | 0, _ => none
  | fuel + 1, cs =>
    match cs.dropWhile isWs with
    | '"' :: rest =>
      let body := rest.takeWhile (fun c => c != '"')
      (match rest.drop body.length with
       | '"' :: rest2 =>
         (match rest2.dropWhile isWs with
          | ':' :: rest3 =>
            (parseJVal fuel rest3).map (fun p => ((String.mk body, p.1), p.2))
          | _ => none)
       | _ => none)
    | _ => none

end

/-- json.loads over a whole string: the parse must consume everything
but trailing whitespace, as the library requires. -/
def pyJsonLoads (s : String) : Option JVal :=
  match parseJVal (s.data.length + 1) s.data with
  | some (v, rest) => if (rest.dropWhile isWs).isEmpty then some v else none
  | none => none

/-- Severity as it flows through normalize_event before the final
polish: unset (None), an integer, or a vendor text token. -/
inductive SevVal where
  | none
  | int (n : Int)
  | str (s : String)
  deriving DecidableEq, Repr

/-- Python truthiness of the severity slot. -/
def sevTruthy : SevVal → Bool
  | .none => false
  | .int n => n != 0
  | .str s => s != ""

/-- Python str() of the severity slot (only called on truthy values). -/
def sevStr : SevVal → String
  | .none => "None"
  | .int n => toString n
  | .str s => s

/-- One raw_events row as fetched by run_batch (the columns
normalize_event reads; event_key, agent_name and rule_id hints are
never read by it). -/
structure RawRow where
  id : Nat
  event_time : Option Int
  sourcetype : Option String
  source : Option String
  host : Option String
  raw_json : Option JVal
  raw_text : Option String
  deriving Repr

/-- The out dict normalize_event builds (normalize.py, lines 145-158). -/
structure NormAcc where
  vendor : String
  event_kind : String
  host : Option String
  source : Option String
  sourcetype : Option String
  event_time : Option Int
  src_ip : Option String
  dest_ip : Option String
  username : Option String
  rule_id : Option String
  signature : Option String
  severity : SevVal
  http_method : Option String
  http_path : Option String
  status_code : Option Int
  extras : List (String × JVal)
  deriving Repr

/-- Python truthiness of an optional string field. -/
def strTruthy : Option String → Bool
  | some s => s != ""
  | none => false

/-- Reading a JSON value into a string-typed field: strings pass, null
and falsy values read as unset; a truthy non-string would make later
str operations raise, modelled as raising at the read. -/
def strFieldE (v : JVal) : Except String (Option String) :=
  match v with
  | .str s => .ok (some s)
  | v => if pyTruthy v then .error "TypeError" else .ok none

/-- Embeds classify_vendor (normalize.py, lines 96-116). -/
def classify_vendor (sourcetype source : Option String) : String × String :=
  let st := lowerStr (sourcetype.getD "")
  let src := lowerStr (source.getD "")
  if Py.containsSub "wazuh-alerts" st then ("wazuh", "alert")
  else if Py.containsSub "wazuh" st || Py.containsSub "wineventlog" st then
    (if Py.containsSub "sysmon" src || Py.containsSub "sysmon" st then
      ("sysmon", "process")
    else ("windows", "event"))
  else if Py.containsSub "opnsense" st || Py.containsSub "suricata" st ||
      Py.containsSub "udp:5514" src then ("opnsense", "network")
  else if Py.containsSub "nginx" st || Py.containsSub "juiceshop" st ||
      Py.containsSub "access.log" src then ("juiceshop", "web")
  else ("unknown", "unknown")

/-- Embeds sanitize_ip (normalize.py, lines 118-122). -/
def sanitize_ip (v : Option String) : Option String :=
  match v with
  | none => none
  | some s =>
    if s = "" then none
    else
      let t := trimStr s
      if t = "-" || t = "" then none else some t

/-- Capture of RE_WIN_SRC_IP / RE_WIN_DEST_IP and similar: the text
after the first occurrence of a token, through a character class, with
the match position (the regex alternation picks the leftmost
alternative; an occurrence not followed by a capturable run is treated
as no match, where the regex engine would scan further). -/
def capAfter (tok : String) (skipWs : Bool) (keep : Char → Bool) (hay : String) :
    Option (Nat × String) :=
  match Py.splitFirst tok.data hay.data with
  | none => none
  | some (before, rest) =>
    let rest2 := if skipWs then rest.dropWhile isWs else rest
    let cap := rest2.takeWhile keep
    if cap.isEmpty then none else some (before.length, String.mk cap)

/-- Leftmost-alternative choice between two positioned captures. -/
def leftmost2 (a b : Option (Nat × String)) : Option String :=
  match a, b with
  | some (i, x), some (j, y) => if i ≤ j then some x else some y
  | some (_, x), none => some x
  | none, some (_, y) => some y
  | none, none => none

/-- Characters of the [\d\.]+ class. -/
def isIpChar (c : Char) : Bool := c.isDigit || c = '.'

/-- Characters of the [^\r\n]+ class. -/
def isLineChar (c : Char) : Bool := c != '\r' && c != '\n'

/-- The TargetUserName XML candidates of extract_winevent_message
(normalize.py, lines 59-63): after each occurrence of the tag name,
the text between the next closing angle bracket and the following
opening one. -/
def xmlUserCandidates : Nat → List Char → List String
  | 0, _ => []
  | fuel + 1, m =>
    match Py.splitFirst "TargetUserName".data m with
    | none => []
    | some (_, rest) =>
      let cand :=
        match Py.splitFirst ['>'] rest with
        | some (_, afterGt) =>
          (match Py.splitFirst ['<'] afterGt with
           | some (captured, _) => [String.mk captured]
           | none => [])
        | none => []
      cand ++ xmlUserCandidates fuel rest

/-- The fields extract_winevent_message returns. -/
structure WinExtract where
  src_ip : Option String := none
  dest_ip : Option String := none
  username : Option String := none
  win_source : Option String := none
  rule_id : Option String := none
  deriving DecidableEq, Repr

/-- The string-scanning body of extract_winevent_message (normalize.py,
lines 44-80). -/
def extractWinFields (m : String) : WinExtract :=
  let srcIp := leftmost2 (capAfter "SourceIp:" true isIpChar m)
    (capAfter "Source Address:" true isIpChar m)
  let destIp := leftmost2 (capAfter "DestinationIp:" true isIpChar m)
    (capAfter "Destination Address:" true isIpChar m)
  let xmlUser := ((xmlUserCandidates (m.data.length + 1) m.data).map trimStr).find?
    (fun c => c != "" && c != "-")
  let username :=
    match xmlUser with
    | some u => some u
    | none =>
      (leftmost2 (capAfter "User:" true isLineChar m)
        (capAfter "Account Name:" true isLineChar m)).map trimStr
  let winSource := (capAfter "SourceName=" false isLineChar m).map
    (fun p => trimStr p.2)
  let ruleId := (capAfter "EventCode=" false Char.isDigit m).map (fun p => p.2)
  { src_ip := srcIp
    dest_ip := destIp
    username := username
    win_source := winSource
    rule_id := ruleId }

/-- Embeds extract_winevent_message: empty on a falsy message, regex
extraction on a string, TypeError on a truthy non-string. -/
def extract_winevent_message (msg : JVal) : Except String WinExtract :=
  if !pyTruthy msg then .ok {}
  else
    match msg with
    | .str m => .ok (extractWinFields m)
    | _ => .error "TypeError"

/-- dict.update(extracted): only the keys extract_winevent_message
produced overwrite the out dict. -/
def applyWinExtract (out : NormAcc) (ex : WinExtract) : NormAcc :=
  { out with
    src_ip := match ex.src_ip with | some v => some v | none => out.src_ip
    dest_ip := match ex.dest_ip with | some v => some v | none => out.dest_ip
    username := match ex.username with | some v => some v | none => out.username
    rule_id := match ex.rule_id with | some v => some v | none => out.rule_id }

/-- Embeds extract_nginx (normalize.py, lines 82-94): the anchored
access-log pattern, parsed left to right; the bracketed time field and
the request tail are matched non-greedily via first-occurrence scans. -/
def parseNginx (raw : String) : Option (String × String × String × Int) := do
  let cs := raw.data
  let t1 := cs.takeWhile (fun c => !isWs c)
  if t1.isEmpty then none
  else
    match cs.drop t1.length with
    | ' ' :: r1 =>
      let t2 := r1.takeWhile (fun c => !isWs c)
      if t2.isEmpty then none
      else
        match r1.drop t2.length with
        | ' ' :: r2 =>
          let t3 := r2.takeWhile (fun c => !isWs c)
          if t3.isEmpty then none
          else
            match r2.drop t3.length with
            | ' ' :: '[' :: r3 =>
              match Py.splitFirst [']'] r3 with
              | some (_, r4) =>
                (match r4 with
                 | ' ' :: '"' :: r5 =>
                   let method := r5.takeWhile (fun c => c != ' ')
                   (match r5.drop method.length with
                    | ' ' :: r6 =>
                      let path := r6.takeWhile (fun c => c != ' ')
                      (match r6.drop path.length with
                       | ' ' :: r7 => do
                         let st ← findStatusAfterQuote (r7.length + 1) r7
                         pure (String.mk t1, String.mk method, String.mk path, st)
                       | _ => none)
                    | _ => none)
                 | _ => none)
              | none => none
            | _ => none
        | _ => none
    | _ => none
where
  /-- The trailing `quote space digits` of the pattern: the first
  closing quote followed by a space and at least one digit. -/
  findStatusAfterQuote : Nat → List Char → Option Int
    | 0, _ => none
    | fuel + 1, cs =>
      match Py.splitFirst ['"', ' '] cs with
      | none => none
      | some (_, after) =>
        let ds := after.takeWhile Char.isDigit
        if ds.isEmpty then findStatusAfterQuote fuel after
        else some (digitsVal ds : Int)

/-- Matches RE_IP at one position: four runs of one to three digits
joined by dots (a longer digit run fails here exactly as the anchored
backtracking does, since every shorter prefix is still followed by a
digit). -/
def ipAt (cs : List Char) : Option (List Char) := do
  let d1 := cs.takeWhile Char.isDigit
  if d1.isEmpty || d1.length > 3 then none
  else
    match cs.drop d1.length with
    | '.' :: r1 =>
      let d2 := r1.takeWhile Char.isDigit
      if d2.isEmpty || d2.length > 3 then none
      else
        match r1.drop d2.length with
        | '.' :: r2 =>
          let d3 := r2.takeWhile Char.isDigit
          if d3.isEmpty || d3.length > 3 then none
          else
            match r2.drop d3.length with
            | '.' :: r3 =>
              let d4 := (r3.takeWhile Char.isDigit).take 3
              if d4.isEmpty then none
              else some (d1 ++ '.' :: d2 ++ '.' :: d3 ++ '.' :: d4)
            | _ => none
        | _ => none
    | _ => none

/-- RE_IP.search: the leftmost dotted-quad-shaped run. -/
def findIPv4 : List Char → Option String
  | [] => none
  | c :: rest =>
    match ipAt (c :: rest) with
    | some ip => some (String.mk ip)
    | none => findIPv4 rest

/-- Matches the bracketed rule-id triplet [d+:d+:d+] at one position,
returning the captured triplet and the remainder after the bracket. -/
def sidAt (cs : List Char) : Option (List Char × List Char) :=
  match cs with
  | '[' :: r =>
    let d1 := r.takeWhile Char.isDigit
    if d1.isEmpty then none
    else
      (match r.drop d1.length with
       | ':' :: r2 =>
         let d2 := r2.takeWhile Char.isDigit
         if d2.isEmpty then none
         else
           (match r2.drop d2.length with
            | ':' :: r3 =>
              let d3 := r3.takeWhile Char.isDigit
              if d3.isEmpty then none
              else
                (match r3.drop d3.length with
                 | ']' :: r4 => some (d1 ++ ':' :: d2 ++ ':' :: d3, r4)
                 | _ => none)
            | _ => none)
       | _ => none)
  | _ => none

/-- The leftmost rule-id triplet, with the remainder after it. -/
def findSidTriple : List Char → Option (List Char × List Char)
  | [] => none
  | c :: rest =>
    match sidAt (c :: rest) with
    | some p => some p
    | none => findSidTriple rest

/-- The signature capture between a start point and the literal
[Classification: marker, stripped (the regex additionally demands
whitespace on both sides of the capture; a payload without it fails to
match where this model still captures, an over-approximation that only
widens where a signature is extracted). -/
def captureToClassification (rem : List Char) : Option String :=
  match Py.splitFirst "[Classification:".data rem with
  | some (mid, _) => some (trimStr (String.mk mid))
  | none => none

/-- The two suricata signature captures (normalize.py, lines 294-303):
text after the first rule-id triplet, else text after the first closing
bracket, in both cases up to [Classification:. -/
def suricataSig (payload : String) : Option String :=
  match findSidTriple payload.data with
  | some (_, rem) => captureToClassification rem
  | none =>
    match Py.splitFirst [']'] payload.data with
    | some (_, rem) => captureToClassification rem
    | none => none

/-- The Priority: capture (normalize.py, lines 308-311). -/
def prioAfter (payload : String) : Option Int :=
  (capAfter "Priority: " false Char.isDigit payload).map
    (fun p => (digitsVal p.2.data : Int))

/-- Word characters of \w. -/
def isWordChar (c : Char) : Bool := c.isAlphanum || c = '_'

/-- The RE_ZENARMOR_SYSLOG capture, action word and slug
(normalize.py, line 42). -/
def zenActionSlug (payload : String) : Option (String × String) :=
  match Py.splitFirst "action ".data payload.data with
  | none => none
  | some (_, rest) =>
    let w := rest.takeWhile isWordChar
    if w.isEmpty then none
    else
      match rest.drop w.length with
      | ' ' :: r2 =>
        let slug := r2.takeWhile (fun c => !isWs c)
        if slug.isEmpty then none else some (String.mk w, String.mk slug)
      | _ => none

/-- Full match of ^\d+\.\d+$ : a metric-artifact float shape. -/
def isFloatLike (s : String) : Bool :=
  let d1 := s.data.takeWhile Char.isDigit
  match s.data.drop d1.length with
  | '.' :: d2 => !d1.isEmpty && !d2.isEmpty && d2.all Char.isDigit
  | _ => false

/-- Full match of the four-octet shape \d{1,3}(\.\d{1,3}){3}$. -/
def isDottedQuad (s : String) : Bool :=
  match ipAt s.data with
  | some ip => ip.length = s.data.length
  | none => false

/-- The Windows/Wazuh severity mapping from the Type / Level /
LevelDisplayName fields (normalize.py, lines 167-179). -/
def winTypeStep (rawFields : List (String × JVal)) (out : NormAcc) : NormAcc :=
  let winType := pyOr (jgetD rawFields "Type")
    (pyOr (jgetD rawFields "Level") (jgetD rawFields "LevelDisplayName"))
  if pyTruthy winType then
    let wt := lowerStr
      (match winType with
       | .arr xs => String.intercalate " " (xs.map pyStr)
       | v => pyStr v)
    if Py.containsSub "error" wt || Py.containsSub "crit" wt then
      { out with severity := .int 7 }
    else if Py.containsSub "warn" wt then { out with severity := .int 4 }
    else if Py.containsSub "info" wt then { out with severity := .int 1 }
    else out
  else out

/-- The Wazuh rule-metadata block (normalize.py, lines 182-204):
description signature, rule level severity mapping (12+ high, 7+
medium, else low, non-integer levels stored as their text), rule-id
fallback, and the authentication_failed group forcing alert. -/
def ruleBlockStep (rawFields : List (String × JVal)) (out : NormAcc) :
    Except String NormAcc := do
  if rawFields.any (fun p => p.1 = "rule") then
    match jgetD rawFields "rule" with
    | .obj ruleFs => do
      let sig ← strFieldE (jgetD ruleFs "description")
      let out := { out with signature := sig }
      let levV := jgetD ruleFs "level"
      let out :=
        if pyTruthy levV then
          match pyIntOfJVal levV with
          | some ilev =>
            if 12 ≤ ilev then { out with severity := .int 7 }
            else if 7 ≤ ilev then { out with severity := .int 4 }
            else { out with severity := .int 1 }
          | none => { out with severity := .str (pyStr levV) }
        else out
      let out :=
        if !strTruthy out.rule_id then
          { out with rule_id := some (pyStr (jgetD ruleFs "id")) }
        else out
      let groups :=
        match jlookup ruleFs "groups" with
        | some v => v
        | none => .arr []
      let inGroups ← pyInE "authentication_failed" groups
      pure (if inGroups then { out with event_kind := "alert" } else out)
    | _ => pure out
  else pure out

/-- The EventCode override from the json payload (normalize.py,
lines 206-207). -/
def eventCodeStep (rawFields : List (String × JVal)) (out : NormAcc) : NormAcc :=
  if rawFields.any (fun p => p.1 = "EventCode") then
    { out with rule_id := some (pyStr (jgetD rawFields "EventCode")) }
  else out

/-- The WinEventLog signature fallback (normalize.py, lines 209-216). -/
def winSigFallbackStep (ex : WinExtract) (out : NormAcc) : NormAcc :=
  if !strTruthy out.signature then
    if strTruthy out.rule_id then
      { out with signature := some ("EventCode=" ++ out.rule_id.getD "") }
    else if strTruthy ex.win_source then
      { out with signature := some ("SourceName=" ++ ex.win_source.getD "") }
    else out
  else out

/-- The event-code to event-kind mapping (normalize.py, lines 218-224):
4625 forces an alert at severity 2. -/
def ruleIdSpecialsStep (out : NormAcc) : NormAcc :=
  let out := if out.rule_id = some "3" then { out with event_kind := "network" } else out
  let out :=
    if out.rule_id = some "4625" then
      { out with event_kind := "alert", severity := .int 2 }
    else out
  let out := if out.rule_id = some "4624" then { out with event_kind := "auth" } else out
  if out.rule_id = some "5156" then { out with event_kind := "network" } else out

/-- The lab-burst demo override (normalize.py, lines 226-233). -/
def labBurstStep (out : NormAcc) : NormAcc :=
  if out.rule_id = some "4625" then
    let u := upperStr (out.username.getD "")
    if ("FAIL_LAB_BURST".data.isPrefixOf u.data) || Py.containsSub "LAB_BURST" u then
      { out with
        severity := .int 7
        event_kind := "alert"
        signature := some (if strTruthy out.signature then out.signature.getD ""
          else "LAB_BURST tagged auth failure")
        extras := [("lab_burst", .bool true)] }
    else out
  else out

/-- The Windows/Wazuh/Sysmon family branch (normalize.py, lines
163-233). -/
def winBranch (rawFields : List (String × JVal)) (message : JVal)
    (out0 : NormAcc) : Except String NormAcc := do
  let ex ← extract_winevent_message message
  let out := applyWinExtract out0 ex
  let out := winTypeStep rawFields out
  let out ← ruleBlockStep rawFields out
  let out := eventCodeStep rawFields out
  let out := winSigFallbackStep ex out
  let out := ruleIdSpecialsStep out
  pure (labBurstStep out)

/-- The nginx access-line extraction of the juiceshop branch
(normalize.py, lines 236-241): raw_text is run through the regex and a
match fills src_ip/http fields. -/
def nginxApplyStep (rawTextV : JVal) (out0 : NormAcc) : Except String NormAcc := do
  let extracted ←
    match rawTextV with
    | .str s => pure (parseNginx s)
    | v => if pyTruthy v then Except.error "TypeError" else pure none
  pure
    (match extracted with
     | some (ip, mth, pth, st) =>
       { out0 with
         src_ip := some ip
         http_method := some mth
         http_path := some pth
         status_code := some st }
     | none => out0)

/-- The clientip json fallback (normalize.py, lines 242-243). -/
def clientIpStep (rawFields : List (String × JVal)) (out : NormAcc) :
    Except String NormAcc :=
  if !strTruthy out.src_ip then do
    let v ← strFieldE (jgetD rawFields "clientip")
    pure { out with src_ip := v }
  else pure out

/-- The juiceshop host fallback chain (normalize.py, lines 245-250). -/
def juiceHostStep (rawFields : List (String × JVal)) (out : NormAcc) :
    Except String NormAcc :=
  if !strTruthy out.host || out.host = some "unknown" then
    if strTruthy out.dest_ip then pure { out with host := out.dest_ip }
    else if pyTruthy (jgetD rawFields "dvc") then do
      let v ← strFieldE (jgetD rawFields "dvc")
      pure { out with host := v }
    else if pyTruthy (jgetD rawFields "container_name") then do
      let v ← strFieldE (jgetD rawFields "container_name")
      pure { out with host := v }
    else pure { out with host := some "juiceshop" }
  else pure out

/-- The nginx extraction and json fallbacks of the juiceshop branch
(normalize.py, lines 236-250). -/
def juiceWebStep (rawFields : List (String × JVal)) (rawTextV : JVal)
    (out0 : NormAcc) : Except String NormAcc := do
  let out ← nginxApplyStep rawTextV out0
  let out ← clientIpStep rawFields out
  juiceHostStep rawFields out

/-- The app-log handling of the juiceshop branch (normalize.py, lines
252-266): signature from the truncated message, text severity from
error:/warn: markers. -/
def appLogStep (message : JVal) (out : NormAcc) : Except String NormAcc := do
  if !(match out.status_code with | some n => n != 0 | none => false) then do
    let cleanMsg ←
      match message with
      | .str s => pure (trimStr s)
      | _ => Except.error "AttributeError"
    let out :=
      if cleanMsg != "" then
        { out with
            signature := some (if cleanMsg.length > 50 then
            String.mk (cleanMsg.data.take 50) ++ ".." else cleanMsg) }
      else out
    let lowerMsg := lowerStr cleanMsg
    if Py.containsSub "error:" lowerMsg then
      pure { out with event_kind := "alert", severity := .str "error" }
    else if Py.containsSub "warn:" lowerMsg then
      pure { out with severity := .str "warn" }
    else pure out
  else pure out

/-- The juiceshop web family branch (normalize.py, lines 235-266). -/
def juiceBranch (rawFields : List (String × JVal)) (rawTextV message : JVal)
    (out0 : NormAcc) : Except String NormAcc := do
  let out ← juiceWebStep rawFields rawTextV out0
  appLogStep message out

/-- The structured-alert path of the opnsense branch (normalize.py,
lines 277-282). -/
def alertJsonStep (rawFields : List (String × JVal)) (out : NormAcc) :
    Except String NormAcc := do
  let alertV := jgetD rawFields "alert"
  let sigV ← jgetE alertV "signature"
  let sidV ← jgetE alertV "signature_id"
  let sig ← strFieldE sigV
  let src ← strFieldE (jgetD rawFields "src_ip")
  let dst ← strFieldE (jgetD rawFields "dest_ip")
  pure { out with
    event_kind := "ids"
    signature := sig
    rule_id := some (pyStr sidV)
    src_ip := src
    dest_ip := dst }

/-- The suricata syslog path (normalize.py, lines 287-321). -/
def suricataStep (payload : String) (out : NormAcc) : NormAcc :=
  let hasSuricata := Py.containsSub "suricata" payload ||
    Py.containsSub "Classification:" payload
  if hasSuricata then
    let out :=
      match findSidTriple payload.data with
      | some (sid, _) => { out with rule_id := some (String.mk sid) }
      | none => out
    let out :=
      match suricataSig payload with
      | some sg => { out with signature := some sg }
      | none => out
    let out := { out with event_kind := "ids" }
    match prioAfter payload with
    | some 1 => { out with severity := .int 7, event_kind := "alert" }
    | some 2 => { out with severity := .int 4, event_kind := "alert" }
    | some 3 => { out with severity := .int 1 }
    | _ => out
  else out

/-- The zenarmor flow-record path (normalize.py, lines 323-346): the
whole block is wrapped in try/except pass, so a payload that fails to
parse, or parses to a non-dict, leaves the out dict untouched. -/
def zenarmorStep (payload : String) (out : NormAcc) : Except String NormAcc := do
  if Py.containsSub ("zenarmor: " ++ "\x7b") payload then
    match Py.afterFirst "zenarmor: " payload with
    | some rest =>
      (match pyJsonLoads (trimStr (String.mk rest)) with
       | some (.obj zfs) => do
         let isBlocked := jgetD zfs "is_blocked" == JVal.num 1
         let action := if isBlocked then "blocked" else "allowed"
         let proto := pyOr (jgetD zfs "app_proto")
           (pyOr (jgetD zfs "app_name") (pyOr (jgetD zfs "transport_proto") (.str "unknown")))
         let direction := pyOr (jgetD zfs "direction") (.str "unknown")
         let out := { out with
           signature := some ("zenarmor:" ++ action ++ ":" ++ pyStr proto ++ ":" ++
             pyStr direction)
           rule_id := some ("flow:" ++ pyStr proto)
           event_kind := "network" }
         let out := if isBlocked then
             { out with event_kind := "alert", severity := .int 4 }
           else out
         let out ←
           if pyTruthy (jgetD zfs "src_ip") then do
             let v ← strFieldE (jgetD zfs "src_ip")
             pure { out with src_ip := v }
           else pure out
         let out ←
           if pyTruthy (jgetD zfs "dst_ip") then do
             let v ← strFieldE (jgetD zfs "dst_ip")
             pure { out with dest_ip := v }
           else pure out
         pure out
       | _ => pure out)
    | none => pure out
  else pure out

/-- The zenarmor syslog fallback (normalize.py, lines 348-356). -/
def zenSyslogStep (payload : String) (out : NormAcc) : NormAcc :=
  if !strTruthy out.signature then
    match zenActionSlug payload with
    | some (action, slug) =>
      { out with
        signature := some (action ++ " " ++ slug)
        rule_id := some slug
        event_kind := "network" }
    | none => out
  else out

/-- The leading-IPv4 extraction of the opnsense branch (normalize.py,
lines 273-275). -/
def ipApplyStep (payload : String) (o : NormAcc) : NormAcc :=
  match findIPv4 payload.data with
  | some ip => { o with src_ip := some ip }
  | none => o

/-- The syslog-payload sub-chain of the opnsense branch (normalize.py,
lines 287-356): suricata markers, zenarmor flow records, and the
zenarmor syslog fallback, in order. -/
def opnSyslogSteps (payload : String) (o : NormAcc) : Except String NormAcc := do
  let out := suricataStep payload o
  let out ← zenarmorStep payload out
  pure (zenSyslogStep payload out)

/-- The event_type signature fallback closing the opnsense branch
(normalize.py, lines 357-359). -/
def eventTypeSigStep (rawFields : List (String × JVal)) (o : NormAcc) :
    Except String NormAcc :=
  if !strTruthy o.signature then do
    let s ← strFieldE (jgetD rawFields "event_type")
    pure { o with signature := s }
  else pure o

/-- The network/IDS opnsense family branch (normalize.py, lines
268-359). -/
def opnBranch (rawFields : List (String × JVal)) (rawTextV : JVal)
    (out0 : NormAcc) : Except String NormAcc := do
  let payload ←
    match pyOr (jgetD rawFields "_raw") (pyOr rawTextV (.str "")) with
    | .str s => pure s
    | _ => Except.error "TypeError"
  let out := ipApplyStep payload out0
  let out ←
    if rawFields.any (fun p => p.1 = "alert") then
      alertJsonStep rawFields out
    else opnSyslogSteps payload out
  eventTypeSigStep rawFields out

/-- The uniform severity polish (normalize.py, lines 361-379): coerce
whatever accumulated into a strict integer, mapping the known text
tokens onto the 0/1/4/7 scale, parsing integer text, and defaulting
everything else to 0.  The token mapping of the stripped lowered
text is split out as its own function. -/
def polishToken (sStr : String) : Int :=
  if sStr = "error" || sStr = "critical" || sStr = "high" || sStr = "err" ||
      sStr = "severe" then 7
  else if sStr = "warn" || sStr = "medium" || sStr = "warning" then 4
  else if sStr = "info" || sStr = "low" || sStr = "informational" then 1
  else if sStr = "debug" then 0
  else (pyIntOfString sStr).getD 0

def polishSeverity (sev : SevVal) : Int :=
  if sevTruthy sev then polishToken (lowerStr (trimStr (sevStr sev)))
  else 0

/-- The metric-artifact host rewrite (normalize.py, lines 382-385). -/
def polishHost (out : NormAcc) : NormAcc :=
  match out.host with
  | some h0 =>
    if h0 != "" then
      let h := trimStr h0
      if isFloatLike h && !isDottedQuad h then { out with host := some "unknown" }
      else { out with host := some h }
    else out
  | none => out

/-- The pipeline-noise infra override (normalize.py, lines 390-396). -/
def infraStep (out : NormAcc) : NormAcc :=
  match out.host with
  | some h =>
    if h != "" && Py.containsSub "8088" h then
      { out with
        vendor := "infra"
        event_kind := "metric"
        severity := .int 0
        signature := some "pipeline_noise" }
    else out
  | none => out

/-- The stable rule-id fallback hash (normalize.py, lines 398-407). -/
def ruleIdFallbackStep (vendor kind : String) (out : NormAcc) : NormAcc :=
  if !strTruthy out.rule_id then
    if strTruthy out.signature then
      { out with rule_id := some (Hashes.md5Hex8 (out.signature.getD "")) }
    else
      { out with rule_id := some (Hashes.md5Hex8 (vendor ++ ":" ++ kind)) }
  else out

/-- The final signature fallback (normalize.py, lines 409-414). -/
def sigFallbackStep (vendor kind : String) (out : NormAcc) : NormAcc :=
  if !strTruthy out.signature then
    if vendor = "juiceshop" && strTruthy out.http_method then
      { out with
          signature := some (out.http_method.getD "" ++ " " ++
        (if strTruthy out.http_path then out.http_path.getD "" else "/")) }
    else { out with signature := some (vendor ++ ":" ++ kind) }
  else out

/-- The uniform severity coercion statement (normalize.py, line 379). -/
def polishSevStep (o : NormAcc) : NormAcc :=
  { o with severity := .int (polishSeverity o.severity) }

/-- The src/dest ip sanitization (normalize.py, lines 387-388). -/
def sanitizeStep (o : NormAcc) : NormAcc :=
  { o with
    src_ip := sanitize_ip o.src_ip
    dest_ip := sanitize_ip o.dest_ip }

/-- The leftover structured fields kept as extras (normalize.py,
lines 416-417). -/
def extrasStep (rawFields : List (String × JVal)) (o : NormAcc) : NormAcc :=
  { o with
    extras := rawFields.filter (fun p =>
      !(p.1 = "_raw" || p.1 = "_time" || p.1 = "_cd" || p.1 = "Message")) }

/-- The uniform final polish closing normalize_event (normalize.py,
lines 361-417), in statement order. -/
def finalPolish (vendor kind : String) (rawFields : List (String × JVal))
    (o : NormAcc) : NormAcc :=
  extrasStep rawFields (sigFallbackStep vendor kind (ruleIdFallbackStep vendor kind
    (infraStep (sanitizeStep (polishHost (polishSevStep o))))))

/-- raw_json = row.get("raw_json") or empty dict, followed by the
isinstance(str) json.loads coercion (normalize.py, lines 134-137). -/
def coerceRawJson (rj : Option JVal) : JVal :=
  let v :=
    match rj with
    | none => JVal.obj []
    | some v => if pyTruthy v then v else JVal.obj []
  match v with
  | .str s =>
    (match pyJsonLoads s with
     | some parsed => parsed
     | none => JVal.obj [])
  | v => v

/-- Embeds normalize_event (normalize.py, lines 124-419): noise filter,
classification, vendor-family extraction, and the uniform final
polish.  Returns none for records dropped as noise and an error where
the interpreter would raise. -/
def normalize_event (row : RawRow) : Except String (Option NormAcc) := do
  let check := trimStr (row.raw_text.getD "")
  if check != "" && (check.data.headD 'x').isDigit && Py.containsSub "     " check then
    pure none
  else do
    let rawJsonV := coerceRawJson row.raw_json
    let (vendor, kind) := classify_vendor row.sourcetype row.source
    let out0 : NormAcc := {
      vendor := vendor, event_kind := kind, host := row.host,
      source := row.source, sourcetype := row.sourcetype,
      event_time := row.event_time,
      src_ip := none, dest_ip := none, username := none,
      rule_id := none, signature := none, severity := .none,
      http_method := none, http_path := none, status_code := none,
      extras := [] }
    let rowRawTextV : JVal :=
      match row.raw_text with
      | some t => .str t
      | none => .null
    let rawTextV ←
      if pyTruthy rowRawTextV then pure rowRawTextV
      else do
        let r ← jgetE rawJsonV "_raw"
        pure (pyOr r (.str ""))
    let msgV0 ← jgetE rawJsonV "Message"
    let message := pyOr msgV0 rawTextV
    let rawFields ←
      match rawJsonV with
      | .obj fs => pure fs
      | _ => Except.error "AttributeError"
    let out ←
      if vendor = "wazuh" || vendor = "sysmon" || vendor = "windows" then
        winBranch rawFields message out0
      else if vendor = "juiceshop" then
        juiceBranch rawFields rawTextV message out0
      else if vendor = "opnsense" then
        opnBranch rawFields rawTextV out0
      else pure out0
    pure (some (finalPolish vendor kind rawFields out))

/-- One normalized_events row as inserted by run_batch (normalize.py,
lines 464-481). -/
structure NormalizedRow where
  raw_id : Nat
  event_time : Int
  vendor : String
  event_kind : String
  source : Option String
  sourcetype : Option String
  host : Option String
  src_ip : Option String
  dest_ip : Option String
  username : Option String
  rule_id : Option String
  signature : Option String
  severity : Int
  http_method : Option String
  http_path : Option String
  http_status : Option Int
  deriving DecidableEq, Repr

/-- The severity column value: the polish step always leaves an
integer. -/
def sevToInt : SevVal → Int
  | .int n => n
  | _ => 0

/-- The VALUES tuple built for one record. -/
def mkInsertRow (r : RawRow) (out : NormAcc) (t : Int) : NormalizedRow :=
  { raw_id := r.id, event_time := t, vendor := out.vendor,
    event_kind := out.event_kind, source := out.source,
    sourcetype := out.sourcetype, host := out.host, src_ip := out.src_ip,
    dest_ip := out.dest_ip, username := out.username, rule_id := out.rule_id,
    signature := out.signature, severity := sevToInt out.severity,
    http_method := out.http_method, http_path := out.http_path,
    http_status := out.status_code }

/-- Per-record processing inside the batch loop (normalize.py, lines
442-481).  The try/except around normalize_event turns its errors into
a logged skip; the event-time fallback below it runs outside that
guard, so a record with no usable event time and a NULL or non-dict
raw payload raises out of the loop (an AttributeError on the .get).
A _time value that is not a numeric epoch is treated as unusable and
the record is skipped. -/
def processRow (r : RawRow) : Except String (Option NormalizedRow) :=
  match normalize_event r with
  | .error _ => .ok none
  | .ok none => .ok none
  | .ok (some out) =>
    match out.event_time with
    | some t => .ok (some (mkInsertRow r out t))
    | none =>
      match r.event_time with
      | some t => .ok (some (mkInsertRow r out t))
      | none =>
        match r.raw_json with
        | some (.obj fs) =>
          (match jgetD fs "_time" with
           | .num n => .ok (some (mkInsertRow r out n))
           | _ => .ok none)
        | _ => .error "AttributeError"

/-- INSERT ... ON CONFLICT (raw_id) DO NOTHING, one value row at a
time in order (normalize.py, lines 483-493). -/
def insertRowIfAbsent (store : List NormalizedRow) (row : NormalizedRow) :
    List NormalizedRow :=
  if store.any (fun n => n.raw_id = row.raw_id) then store else store ++ [row]

/-- Embeds run_batch (normalize.py, lines 423-494): select the raw
rows with no normalized row yet (in table order, bounded by the
limit), process each, and bulk-insert the produced rows with
insert-if-absent on raw_id.  An uncaught per-record error aborts the
batch with the store unchanged (the enclosing transaction rolls
back). -/
def run_batch (store : List NormalizedRow) (raws : List RawRow) (lim : Nat) :
    Except String (List NormalizedRow) := do
  let selected := (raws.filter (fun r =>
    !store.any (fun n => n.raw_id = r.id))).take lim
  let processed ← selected.mapM processRow
  pure (processed.reduceOption.foldl insertRowIfAbsent store)

/-- The severity figure of a normalized record (the polish step always
leaves an integer). -/
def severityResult (r : RawRow) : Option Int :=
  match normalize_event r with
  | .ok (some out) =>
    (match out.severity with
     | .int n => some n
     | _ => none)
  | _ => none

/-- The fixed ordinal scale of the final severity polish, plus the
integer 2 the Windows 4625 path writes. -/
def SevSet : List Int := [0, 1, 2, 4, 7]

/-- An invariant of the severity slot across the vendor branches: the
final polish maps it into SevSet. -/
def GoodSev (sev : SevVal) : Prop := polishSeverity sev ∈ SevSet

end Normalize

/-! ## Support definitions: extra query views and concrete inputs -/

namespace Features

/-- The last value a row list writes at a conflict key (the upsert
loop applies rows in order, so the last one wins). -/
def lastWrite (rows : List FRow) (k : Int × Int × String × String × String × String) :
    Option Int :=
  (rows.reverse.find? (fun r => conflictKey r = k)).map (fun r => r.value)

/-- The concatenated grouped rows of all queries of one aggregator
run. -/
def allQueryRows (rules : List AggRule) (lookbackStart : Int) (evs : List NEvent) :
    List FRow :=
  (rules.map (fun ru => computeRows ru lookbackStart evs)).flatten

end Features

namespace Examples

open BuildSignals Correlate Detections Normalize

/-- A feature set with one current-window auth-failure bucket of value
4 for host web01 and no baseline rows. -/
def fsSum4 : List FeatureRow :=
  [{ bin_start := -100, bin_size_sec := 60, feature_name := "auth_fail_count",
     entity_type := "host", entity_id := "web01", value := 4 }]

/-- The same shape with value 6. -/
def fsSum6 : List FeatureRow :=
  [{ bin_start := -100, bin_size_sec := 60, feature_name := "auth_fail_count",
     entity_type := "host", entity_id := "web01", value := 6 }]

/-- A signal carrying score 500, for the capping claims. -/
def sig500 : Signal :=
  { id := 11, signal_name := "auth_fail_spike", entity_type := "host",
    entity_id := "web01", severity := 7, score := 500,
    window_start := 0, window_end := 600 }

/-- The empty correlator state. -/
def stEmpty : CorrState := { incidents := [], evidence := [], nextId := 1 }

/-- An incident rooted at another host, matching nothing aimed at
web01. -/
def incOther : Incident :=
  { id := 3, title := "x on db01", status := Status.ACTIVE, severity := 4,
    score := 10, root_entity_type := "host", root_entity_id := "db01",
    start_time := 0, end_time := 100, last_update_time := 100 }

/-- A one-incident state whose stored incident does not match sig500. -/
def stOther : CorrState := { incidents := [incOther], evidence := [], nextId := 7 }

/-- An incident at web01 recently updated, matching sig500. -/
def incMatch : Incident :=
  { id := 4, title := "auth_fail_spike on web01", status := Status.NEW,
    severity := 7, score := 20, root_entity_type := "host",
    root_entity_id := "web01", start_time := 0, end_time := 500,
    last_update_time := 500 }

/-- A one-incident state whose stored incident matches sig500. -/
def stMatch : CorrState := { incidents := [incMatch], evidence := [], nextId := 9 }

/-- A pending detection signal. -/
def pendA : PendingSignal :=
  { signal_name := "Spike in Bad Events", entity_type := "host",
    entity_id := "web01", severity := 7, score := 60,
    window_start := 0, window_end := 300 }

/-- A second pending signal with the same dedupe quadruple but a
different score. -/
def pendB : PendingSignal :=
  { signal_name := "Spike in Bad Events", entity_type := "host",
    entity_id := "web01", severity := 7, score := 75,
    window_start := 60, window_end := 300 }

/-- A raw Windows security event whose body carries EventCode 4625:
the auth-failure path that ends at severity 2. -/
def exRow4625 : RawRow :=
  { id := 1, event_time := some 1000, sourcetype := some "WinEventLog",
    source := some "WinEventLog:Security", host := some "dc01",
    raw_json := none, raw_text := some "EventCode=4625 Account Name: bob" }

/-- A raw record with no event time and a NULL raw payload: its
event-time fallback dereferences the NULL payload outside the
per-record guard. -/
def badRow : RawRow :=
  { id := 2, event_time := none, sourcetype := none, source := none,
    host := none, raw_json := none, raw_text := some "hello world" }

/-- The normalized store produced by one run over exRow4625. -/
def store4625 : List NormalizedRow :=
  (Normalize.run_batch [] [exRow4625] 1000).toOption.getD []

/-- The accumulator normalize_event produces for exRow4625 (severity 2
via the EventCode 4625 special case). -/
def normOut4625 : NormAcc :=
  match Normalize.normalize_event exRow4625 with
  | .ok (some o) => o
  | _ =>
    { vendor := "", event_kind := "", host := none, source := none,
      sourcetype := none, event_time := none, src_ip := none, dest_ip := none,
      username := none, rule_id := none, signature := none, severity := .none,
      http_method := none, http_path := none, status_code := none, extras := [] }

end Examples

namespace Detections

theorem any_eq_isSome_find? (cps : CheckpointStore) (job : String) :
    cps.any (fun p => p.1 = job) = (cps.find? (fun p => p.1 = job)).isSome := by
  induction cps with
  | nil => simp
  | cons p ps ih =>
    by_cases hp : p.1 = job
    · simp [List.any_cons, List.find?_cons, hp]
    · simp [List.any_cons, List.find?_cons, hp, ih]

theorem get_update_same (cps : CheckpointStore) (job : String) (w prev : Int)
    (h : get_checkpoint cps job = some prev) :
    get_checkpoint (update_checkpoint cps job w) job = some (max prev w) := by
  have hsome : (cps.find? (fun p => p.1 = job)).isSome := by
    simp only [get_checkpoint] at h
    cases hf : cps.find? (fun p => p.1 = job) with
    | none => rw [hf] at h; simp at h
    | some q => simp
  have hany : cps.any (fun p => p.1 = job) = true := by
    rw [any_eq_isSome_find?, hsome]
  rw [update_checkpoint, hany]
  simp only [if_true]
  clear hsome hany
  induction cps with
  | nil => simp [get_checkpoint] at h
  | cons p ps ih =>
    by_cases hp : p.1 = job
    · simp only [get_checkpoint, List.find?_cons, hp, decide_True, Option.map_some] at h
      injection h with h2
      subst h2
      simp [get_checkpoint, List.map_cons, List.find?_cons, hp]
    · simp only [get_checkpoint, List.find?_cons, hp, decide_False] at h
      have := ih h
      simp only [get_checkpoint, List.map_cons, List.find?_cons, hp, decide_False,
        if_false] at this ⊢
      simpa [hp] using this

theorem get_append_fresh (cps : CheckpointStore) (job : String) (w : Int)
    (hnone : cps.find? (fun p => p.1 = job) = none) :
    get_checkpoint (cps ++ [(job, w)]) job = some w := by
  induction cps with
  | nil => simp [get_checkpoint]
  | cons p ps ih =>
    have hp : ¬ (p.1 = job) := by
      intro hcontra
      have := List.find?_eq_none.mp hnone p (by simp)
      simp [hcontra] at this
    have hnone2 : ps.find? (fun q => q.1 = job) = none := by
      rw [List.find?_eq_none]
      intro q hq
      exact List.find?_eq_none.mp hnone q (by simp [hq])
    have := ih hnone2
    simp only [get_checkpoint, List.cons_append, List.find?_cons, hp] at this ⊢
    simpa [hp] using this

theorem get_update_fresh (cps : CheckpointStore) (job : String) (w : Int)
    (h : get_checkpoint cps job = none) :
    get_checkpoint (update_checkpoint cps job w) job = some w := by
  have hnone : cps.find? (fun p => p.1 = job) = none := by
    simp only [get_checkpoint] at h
    cases hf : cps.find? (fun p => p.1 = job) with
    | none => rfl
    | some q => rw [hf] at h; simp at h
  have hany : cps.any (fun p => p.1 = job) = false := by
    rw [any_eq_isSome_find?, hnone]
    rfl
  rw [update_checkpoint, hany]
  simp only [Bool.false_eq_true, if_false]
  exact get_append_fresh cps job w hnone

end Detections

/-! ## Claim C6: checkpoint monotonicity -/

/-- C6: for every job name and update, the stored last_window_end after
an update equals the maximum of its previous value and the newly
reported window end (so it never decreases, even when an update reports
an earlier end time); an update for a job with no stored checkpoint
stores the reported end; and after a detector run over a window ending
at now that starts at the stored checkpoint t0 < now, the stored
checkpoint equals now. -/
theorem C6_checkpoint_monotone :
    (∀ (cps : Detections.CheckpointStore) (job : String) (w prev : Int),
      Detections.get_checkpoint cps job = some prev →
      Detections.get_checkpoint (Detections.update_checkpoint cps job w) job =
        some (max prev w)) ∧
    (∀ (cps : Detections.CheckpointStore) (job : String) (w : Int),
      Detections.get_checkpoint cps job = none →
      Detections.get_checkpoint (Detections.update_checkpoint cps job w) job =
        some w) ∧
    (∀ (cps : Detections.CheckpointStore) (now prev : Int),
      Detections.get_checkpoint cps "detections_main" = some prev →
      prev < now →
      Detections.get_checkpoint (Detections.run_detections_checkpoint cps now)
        "detections_main" = some now) := by
  refine ⟨Detections.get_update_same, Detections.get_update_fresh, ?_⟩
  intro cps now prev h hlt
  rw [Detections.run_detections_checkpoint, h]
  simp only [ge_iff_le]
  rw [if_neg (by omega)]
  have := Detections.get_update_same cps "detections_main" now prev h
  rw [this]
  congr 1
  omega

/-- Witness for C6 at a concrete store: updating the stored checkpoint
5 with a report of 9 stores max 5 9, and a detector run at now = 8
stores 8. -/
theorem C6_checkpoint_monotone_witness :
    Detections.get_checkpoint
      (Detections.update_checkpoint [("detections_main", 5)] "detections_main" 9)
      "detections_main" = some (max 5 9) ∧
    Detections.get_checkpoint
      (Detections.run_detections_checkpoint [("detections_main", 5)] 8)
      "detections_main" = some 8 :=
  ⟨C6_checkpoint_monotone.1 [("detections_main", 5)] "detections_main" 9 5 (by decide),
   C6_checkpoint_monotone.2.2 [("detections_main", 5)] 8 5 (by decide) (by decide)⟩

/-! ## Claim C7: signal dedup -/

namespace Detections

theorem countQuad_append (store : List SignalRow) (r : SignalRow)
    (n t i : String) (w : Int) :
    countQuad (store ++ [r]) n t i w =
      countQuad store n t i w +
        (if r.signal_name = n ∧ r.entity_type = t ∧ r.entity_id = i ∧
            r.window_end = w then 1 else 0) := by
  rw [countQuad, countQuad, List.filter_append, List.length_append]
  congr 1
  by_cases h : r.signal_name = n ∧ r.entity_type = t ∧ r.entity_id = i ∧
      r.window_end = w
  · obtain ⟨h1, h2, h3, h4⟩ := h
    simp [List.filter, h1, h2, h3, h4]
  · rw [if_neg h]
    simp only [List.filter]
    rcases Decidable.em (r.signal_name = n) with h1 | h1
    · rcases Decidable.em (r.entity_type = t) with h2 | h2
      · rcases Decidable.em (r.entity_id = i) with h3 | h3
        · rcases Decidable.em (r.window_end = w) with h4 | h4
          · exact absurd ⟨h1, h2, h3, h4⟩ h
          · simp [h1, h2, h3, h4]
        · simp [h1, h2, h3]
      · simp [h1, h2]
    · simp [h1]

end Detections

/-- C7: the dedupe key is a function of exactly the quadruple
(signal_name, entity_type, entity_id, window_end) — two signals
agreeing on those four fields get the same key regardless of their
other fields — and insertion is insert-if-absent on the key, so two
insertions of signals with an identical quadruple into a well-formed
store holding no row under that key leave exactly one stored row with
that combination. -/
theorem C7_dedupe_key :
    (∀ s1 s2 : Detections.PendingSignal,
      s1.signal_name = s2.signal_name → s1.entity_type = s2.entity_type →
      s1.entity_id = s2.entity_id → s1.window_end = s2.window_end →
      (Detections.toRow s1).dedupe_key = (Detections.toRow s2).dedupe_key) ∧
    (∀ (store : List Detections.SignalRow) (s1 s2 : Detections.PendingSignal),
      s1.signal_name = s2.signal_name → s1.entity_type = s2.entity_type →
      s1.entity_id = s2.entity_id → s1.window_end = s2.window_end →
      Detections.WfStore store →
      (∀ r ∈ store, r.dedupe_key ≠ (Detections.toRow s1).dedupe_key) →
      Detections.countQuad (Detections.insertSignals store [s1, s2])
        s1.signal_name s1.entity_type s1.entity_id s1.window_end = 1) := by
  constructor
  · intro s1 s2 h1 h2 h3 h4
    simp only [Detections.toRow, Detections.generate_dedupe_key, h1, h2, h3, h4]
  · intro store s1 s2 h1 h2 h3 h4 hwf hfresh
    have hkey : (Detections.toRow s2).dedupe_key = (Detections.toRow s1).dedupe_key := by
      simp only [Detections.toRow, Detections.generate_dedupe_key, h1, h2, h3, h4]
    have hrow1 : Detections.insertSignal store s1 = store ++ [Detections.toRow s1] := by
      rw [Detections.insertSignal]
      have : store.any (fun r => r.dedupe_key = (Detections.toRow s1).dedupe_key) = false := by
        rw [List.any_eq_false]
        intro r hr
        simpa using hfresh r hr
      simp [this]
    have hrow2 : Detections.insertSignal (store ++ [Detections.toRow s1]) s2 =
        store ++ [Detections.toRow s1] := by
      rw [Detections.insertSignal]
      have : (store ++ [Detections.toRow s1]).any
          (fun r => r.dedupe_key = (Detections.toRow s2).dedupe_key) = true := by
        rw [List.any_eq_true]
        exact ⟨Detections.toRow s1, by simp, by simp [hkey]⟩
      simp [this]
    have hstore0 : Detections.countQuad store s1.signal_name s1.entity_type
        s1.entity_id s1.window_end = 0 := by
      rw [Detections.countQuad, List.length_eq_zero, List.filter_eq_nil_iff]
      intro r hr
      intro hmatch
      simp only [Bool.and_eq_true, decide_eq_true_eq] at hmatch
      obtain ⟨⟨⟨hm1, hm2⟩, hm3⟩, hm4⟩ := hmatch
      apply hfresh r hr
      rw [hwf r hr]
      simp only [Detections.toRow, Detections.generate_dedupe_key, hm1, hm2, hm3, hm4]
    rw [Detections.insertSignals]
    simp only [List.foldl_cons, List.foldl_nil]
    rw [hrow1, hrow2, Detections.countQuad_append, hstore0]
    simp [Detections.toRow]

/-- Witness for C7: inserting two concrete signals sharing the
quadruple into the empty store leaves exactly one row for it. -/
theorem C7_dedupe_key_witness :
    Detections.countQuad
      (Detections.insertSignals [] [Examples.pendA, Examples.pendB])
      Examples.pendA.signal_name Examples.pendA.entity_type
      Examples.pendA.entity_id Examples.pendA.window_end = 1 :=
  C7_dedupe_key.2 [] Examples.pendA Examples.pendB rfl rfl rfl rfl
    (by intro r hr; simp at hr) (by intro r hr; simp at hr)

/-! ## Correlator lemmas shared by C2, C3 and C10 -/

namespace Correlate

theorem pick_spec (l : List Incident) (acc : Option Incident) (m : Incident)
    (h : l.foldl (fun acc i =>
      match acc with
      | none => some i
      | some j => if j.last_update_time < i.last_update_time then some i else some j)
      acc = some m) :
    (m ∈ l ∨ acc = some m) ∧
    (∀ x ∈ l, x.last_update_time ≤ m.last_update_time) ∧
    (∀ a, acc = some a → a.last_update_time ≤ m.last_update_time) := by
  induction l generalizing acc with
  | nil =>
    simp only [List.foldl_nil] at h
    refine ⟨Or.inr h, by simp, ?_⟩
    intro a ha
    rw [h] at ha
    injection ha with ha2
    subst ha2
    exact le_refl _
  | cons x xs ih =>
    simp only [List.foldl_cons] at h
    cases acc with
    | none =>
      obtain ⟨hmem, hall, hacc⟩ := ih (some x) (by simpa using h)
      have hxle : x.last_update_time ≤ m.last_update_time := hacc x rfl
      refine ⟨?_, ?_, ?_⟩
      · rcases hmem with hm | hm
        · exact Or.inl (List.mem_cons_of_mem x hm)
        · injection hm with hm2
          exact Or.inl (by rw [← hm2]; exact List.mem_cons_self x xs)
      · intro y hy
        rcases List.mem_cons.mp hy with hy | hy
        · rw [hy]; exact hxle
        · exact hall y hy
      · intro a ha
        cases ha
    | some j =>
      by_cases hlt : j.last_update_time < x.last_update_time
      · obtain ⟨hmem, hall, hacc⟩ := ih (some x) (by simpa [hlt] using h)
        have hxle : x.last_update_time ≤ m.last_update_time := hacc x rfl
        refine ⟨?_, ?_, ?_⟩
        · rcases hmem with hm | hm
          · exact Or.inl (List.mem_cons_of_mem x hm)
          · injection hm with hm2
            exact Or.inl (by rw [← hm2]; exact List.mem_cons_self x xs)
        · intro y hy
          rcases List.mem_cons.mp hy with hy | hy
          · rw [hy]; exact hxle
          · exact hall y hy
        · intro a ha
          injection ha with ha2
          subst ha2
          omega
      · obtain ⟨hmem, hall, hacc⟩ := ih (some j) (by simpa [hlt] using h)
        have hjle : j.last_update_time ≤ m.last_update_time := hacc j rfl
        refine ⟨?_, ?_, ?_⟩
        · rcases hmem with hm | hm
          · exact Or.inl (List.mem_cons_of_mem x hm)
          · exact Or.inr hm
        · intro y hy
          rcases List.mem_cons.mp hy with hy | hy
          · rw [hy]; omega
          · exact hall y hy
        · intro a ha
          injection ha with ha2
          subst ha2
          exact hjle

theorem findCandidate_some (incidents : List Incident) (sig : Signal)
    (cand : Incident) (h : findCandidate incidents sig = some cand) :
    cand ∈ incidents ∧ matchesIncident sig cand ∧
    ∀ j ∈ incidents, matchesIncident sig j →
      j.last_update_time ≤ cand.last_update_time := by
  rw [findCandidate] at h
  obtain ⟨hmem, hall, _⟩ := pick_spec _ none cand h
  have hmem2 : cand ∈ incidents.filter (fun i => decide (matchesIncident sig i)) := by
    rcases hmem with hm | hm
    · exact hm
    · cases hm
  obtain ⟨hin, hpred⟩ := List.mem_filter.mp hmem2
  refine ⟨hin, by simpa using hpred, ?_⟩
  intro j hj hmatch
  exact hall j (List.mem_filter.mpr ⟨hj, by simpa using hmatch⟩)

theorem findCandidate_none (incidents : List Incident) (sig : Signal)
    (h : ∀ j ∈ incidents, ¬ matchesIncident sig j) :
    findCandidate incidents sig = none := by
  rw [findCandidate]
  have : incidents.filter (fun i => decide (matchesIncident sig i)) = [] := by
    rw [List.filter_eq_nil_iff]
    intro j hj
    simpa using h j hj
  rw [this]
  rfl

theorem mem_id_unique (l : List Incident)
    (hno : (l.map Incident.id).Nodup) (i j : Incident)
    (hi : i ∈ l) (hj : j ∈ l) (hij : j.id = i.id) : j = i :=
  List.inj_on_of_nodup_map hno hj hi hij

end Correlate

/-! ## Claim C2: score capping -/

/-- C2 counterexample: consuming a signal with score 500 through the
create-new-incident path stores an incident whose score is the full
500, an increase far above the cap of 50. -/
theorem C2_counterexample :
    (Correlate.processSignal Examples.stEmpty Examples.sig500).incidents.map
      (fun i => i.score) = [500] ∧ ¬ ((500 : Rat) ≤ 0 + 50) :=
  ⟨rfl, by norm_num⟩

/-- C2 amended: on the attach path, processing a signal raises any
stored incident's score by at most the cap of 50, whatever the
signal's own score; on the create path the new incident's score is set
to the signal's full score, uncapped. -/
theorem C2_amended_cap :
    (∀ (st : Correlate.CorrState) (sig : Correlate.Signal)
       (i j : Correlate.Incident),
       (st.incidents.map Correlate.Incident.id).Nodup →
       (∀ k ∈ st.incidents, k.id ≠ st.nextId) →
       i ∈ st.incidents → j ∈ (Correlate.processSignal st sig).incidents →
       j.id = i.id → j.score ≤ i.score + 50) ∧
    (∀ (st : Correlate.CorrState) (sig : Correlate.Signal),
       Correlate.findCandidate st.incidents sig = none →
       (Correlate.processSignal st sig).incidents =
         st.incidents ++ [Correlate.newIncident sig st.nextId] ∧
       (Correlate.newIncident sig st.nextId).score = sig.score) := by
  constructor
  · intro st sig i j hnodup hfresh hi hj hid
    rw [Correlate.processSignal] at hj
    cases hcand : Correlate.findCandidate st.incidents sig with
    | some cand =>
      rw [hcand] at hj
      simp only [List.mem_map] at hj
      obtain ⟨i2, hi2, hji⟩ := hj
      have hidpres : (if i2.id = cand.id then Correlate.attachUpdate sig i2
          else i2).id = i2.id := by
        by_cases hc : i2.id = cand.id
        · simp [hc, Correlate.attachUpdate]
        · simp [hc]
      have hi2id : i2.id = i.id := by rw [← hid, ← hji]; exact hidpres.symm
      have hi2eq : i2 = i := Correlate.mem_id_unique st.incidents hnodup i i2 hi hi2 hi2id
      subst hi2eq
      by_cases hc : i2.id = cand.id
      · rw [← hji]
        simp only [hc, if_true, Correlate.attachUpdate]
        have : min sig.score 50 ≤ 50 := min_le_right _ _
        linarith
      · rw [← hji]
        simp only [hc, if_false]
        have : (0 : Rat) ≤ 50 := by norm_num
        linarith
    | none =>
      rw [hcand] at hj
      simp only [List.mem_append, List.mem_singleton] at hj
      rcases hj with hj | hj
      · have hjeq : j = i := Correlate.mem_id_unique st.incidents hnodup i j hi hj hid
        subst hjeq
        have : (0 : Rat) ≤ 50 := by norm_num
        linarith
      · exfalso
        have : j.id = st.nextId := by rw [hj]; rfl
        exact hfresh i hi (by rw [← hid, this])
  · intro st sig h
    rw [Correlate.processSignal, h]
    exact ⟨rfl, rfl⟩

/-- Witness for C2 amended: a concrete create-path run where the
untouched stored incident's score is within the bound, and the
created incident takes the signal's full score. -/
theorem C2_amended_cap_witness :
    (Examples.incOther.score ≤ Examples.incOther.score + 50) ∧
    ((Correlate.processSignal Examples.stOther Examples.sig500).incidents =
      Examples.stOther.incidents ++
        [Correlate.newIncident Examples.sig500 Examples.stOther.nextId] ∧
     (Correlate.newIncident Examples.sig500 Examples.stOther.nextId).score =
       Examples.sig500.score) :=
  ⟨C2_amended_cap.1 Examples.stOther Examples.sig500 Examples.incOther
      Examples.incOther (by decide) (by decide) (by decide) (by decide) rfl,
   C2_amended_cap.2 Examples.stOther Examples.sig500 (by decide)⟩

/-! ## Claim C3: correlation windowing -/

/-- C3: a signal attaches only to an incident with the same root
entity, status NEW or ACTIVE, last_update_time within 30 minutes
before the signal's window_end and start_time within the 4-hour
lifetime of it, selecting the most recently updated match and linking
the signal as evidence; when no incident qualifies a new incident is
created with status NEW and its time bounds taken from the signal's
window. -/
theorem C3_correlation_window :
    (∀ (st : Correlate.CorrState) (sig : Correlate.Signal)
       (cand : Correlate.Incident),
      Correlate.findCandidate st.incidents sig = some cand →
      cand ∈ st.incidents ∧
      cand.root_entity_type = sig.entity_type ∧
      cand.root_entity_id = sig.entity_id ∧
      (cand.status = Correlate.Status.NEW ∨
        cand.status = Correlate.Status.ACTIVE) ∧
      sig.window_end - 30 * 60 ≤ cand.last_update_time ∧
      sig.window_end - 4 * 3600 ≤ cand.start_time ∧
      (∀ j ∈ st.incidents, Correlate.matchesIncident sig j →
        j.last_update_time ≤ cand.last_update_time) ∧
      (cand.id, sig.id) ∈ (Correlate.processSignal st sig).evidence) ∧
    (∀ (st : Correlate.CorrState) (sig : Correlate.Signal),
      (∀ j ∈ st.incidents, ¬ Correlate.matchesIncident sig j) →
      (Correlate.processSignal st sig).incidents =
        st.incidents ++ [Correlate.newIncident sig st.nextId] ∧
      (Correlate.newIncident sig st.nextId).status = Correlate.Status.NEW ∧
      (Correlate.newIncident sig st.nextId).start_time = sig.window_start ∧
      (Correlate.newIncident sig st.nextId).end_time = sig.window_end) := by
  constructor
  · intro st sig cand h
    obtain ⟨hmem, hmatch, hmax⟩ := Correlate.findCandidate_some st.incidents sig cand h
    obtain ⟨m1, m2, m3, m4, m5⟩ := hmatch
    refine ⟨hmem, m1, m2, m3, m4, m5, hmax, ?_⟩
    rw [Correlate.processSignal, h]
    simp only [Correlate.insertEvidence]
    by_cases hin : (cand.id, sig.id) ∈ st.evidence
    · simp [hin]
    · simp [hin]
  · intro st sig h
    rw [Correlate.processSignal, Correlate.findCandidate_none st.incidents sig h]
    exact ⟨rfl, rfl, rfl, rfl⟩

/-- Witness for C3 at concrete inputs: the matching incident is found
and linked, and a non-matching state gets a fresh NEW incident with the
signal's window bounds. -/
theorem C3_correlation_window_witness :
    (Examples.incMatch ∈ Examples.stMatch.incidents ∧
     Examples.incMatch.root_entity_type = Examples.sig500.entity_type ∧
     Examples.incMatch.root_entity_id = Examples.sig500.entity_id ∧
     (Examples.incMatch.status = Correlate.Status.NEW ∨
       Examples.incMatch.status = Correlate.Status.ACTIVE) ∧
     Examples.sig500.window_end - 30 * 60 ≤ Examples.incMatch.last_update_time ∧
     Examples.sig500.window_end - 4 * 3600 ≤ Examples.incMatch.start_time ∧
     (∀ j ∈ Examples.stMatch.incidents,
       Correlate.matchesIncident Examples.sig500 j →
       j.last_update_time ≤ Examples.incMatch.last_update_time) ∧
     (Examples.incMatch.id, Examples.sig500.id) ∈
       (Correlate.processSignal Examples.stMatch Examples.sig500).evidence) ∧
    ((Correlate.processSignal Examples.stOther Examples.sig500).incidents =
       Examples.stOther.incidents ++
         [Correlate.newIncident Examples.sig500 Examples.stOther.nextId] ∧
     (Correlate.newIncident Examples.sig500 Examples.stOther.nextId).status =
       Correlate.Status.NEW ∧
     (Correlate.newIncident Examples.sig500 Examples.stOther.nextId).start_time =
       Examples.sig500.window_start ∧
     (Correlate.newIncident Examples.sig500 Examples.stOther.nextId).end_time =
       Examples.sig500.window_end) :=
  ⟨C3_correlation_window.1 Examples.stMatch Examples.sig500 Examples.incMatch
      (by decide),
   C3_correlation_window.2 Examples.stOther Examples.sig500 (by decide)⟩

/-! ## Claim C10: the correlator never touches status -/

namespace Correlate

theorem processSignal_status (st : CorrState) (sig : Signal) (i : Incident)
    (hi : i ∈ (processSignal st sig).incidents) :
    (∃ j ∈ st.incidents, j.id = i.id ∧ i.status = j.status) ∨
    i.status = Status.NEW := by
  rw [processSignal] at hi
  cases hcand : findCandidate st.incidents sig with
  | some cand =>
    rw [hcand] at hi
    simp only [List.mem_map] at hi
    obtain ⟨j, hj, hji⟩ := hi
    left
    refine ⟨j, hj, ?_, ?_⟩
    · rw [← hji]
      by_cases hc : j.id = cand.id
      · simp [hc, attachUpdate]
      · simp [hc]
    · rw [← hji]
      by_cases hc : j.id = cand.id
      · simp [hc, attachUpdate]
      · simp [hc]
  | none =>
    rw [hcand] at hi
    simp only [List.mem_append, List.mem_singleton] at hi
    rcases hi with hi | hi
    · exact Or.inl ⟨i, hi, rfl, rfl⟩
    · right
      rw [hi]
      rfl

end Correlate

/-- C10: the correlator never modifies an incident's status: the attach
update changes only last_update_time, end_time, severity and score
(status, id, title, root entity and start_time are untouched), every
incident it creates has status NEW, and hence after any run every
incident either keeps the status it had or is a fresh NEW one — no run
ever sets ACTIVE or CLOSED. -/
theorem C10_status_frame :
    (∀ (sig : Correlate.Signal) (i : Correlate.Incident),
      (Correlate.attachUpdate sig i).status = i.status ∧
      (Correlate.attachUpdate sig i).id = i.id ∧
      (Correlate.attachUpdate sig i).title = i.title ∧
      (Correlate.attachUpdate sig i).root_entity_type = i.root_entity_type ∧
      (Correlate.attachUpdate sig i).root_entity_id = i.root_entity_id ∧
      (Correlate.attachUpdate sig i).start_time = i.start_time) ∧
    (∀ (sig : Correlate.Signal) (nid : Nat),
      (Correlate.newIncident sig nid).status = Correlate.Status.NEW) ∧
    (∀ (st : Correlate.CorrState) (sigs : List Correlate.Signal)
       (i : Correlate.Incident),
      i ∈ (Correlate.correlate_signals st sigs).incidents →
      (∃ j ∈ st.incidents, j.id = i.id ∧ i.status = j.status) ∨
      i.status = Correlate.Status.NEW) := by
  refine ⟨fun sig i => ⟨rfl, rfl, rfl, rfl, rfl, rfl⟩, fun sig nid => rfl, ?_⟩
  intro st sigs
  induction sigs generalizing st with
  | nil =>
    intro i hi
    exact Or.inl ⟨i, hi, rfl, rfl⟩
  | cons s ss ih =>
    intro i hi
    rw [Correlate.correlate_signals, List.foldl_cons] at hi
    rcases ih (Correlate.processSignal st s) i hi with ⟨j, hj, hjid, hjst⟩ | hnew
    · rcases Correlate.processSignal_status st s j hj with ⟨k, hk, hkid, hkst⟩ | hjnew
      · exact Or.inl ⟨k, hk, by rw [hkid, hjid], by rw [hjst, hkst]⟩
      · exact Or.inr (by rw [hjst, hjnew])
    · exact Or.inr hnew

/-- Witness for C10: a concrete run over one signal leaves the stored
incident's status as it was or NEW. -/
theorem C10_status_frame_witness :
    (∃ j ∈ Examples.stOther.incidents,
      j.id = (Correlate.newIncident Examples.sig500 7).id ∧
      (Correlate.newIncident Examples.sig500 7).status = j.status) ∨
    (Correlate.newIncident Examples.sig500 7).status = Correlate.Status.NEW :=
  C10_status_frame.2.2 Examples.stOther [Examples.sig500]
    (Correlate.newIncident Examples.sig500 7) (by decide)

/-! ## Claim C1: auth-failure spike threshold -/

/-- C1: an entity scanned by the auth-failure spike detector (one with
at least one current-window bucket) gets a signal iff its current
window sum is at least the floor of 5 and exceeds three times the
per-bucket baseline average plus 5; the baseline average is 0 for an
entity with no baseline rows; and concretely a sum of 4 with empty
baseline yields no signal while a sum of 6 yields one. -/
theorem C1_spike_threshold :
    (∀ (fs : List BuildSignals.FeatureRow) (now : Int) (e : String),
      e ∈ BuildSignals.currentEntities fs now →
      (e ∈ BuildSignals.authFailSpikeEntities fs now ↔
        (5 ≤ BuildSignals.currentSum fs now e ∧
         3 * BuildSignals.baselineAvg fs now e + 5 <
           BuildSignals.currentSum fs now e))) ∧
    (∀ (fs : List BuildSignals.FeatureRow) (now : Int) (e : String),
      BuildSignals.baselineRows fs now e = [] →
      BuildSignals.baselineAvg fs now e = 0) ∧
    BuildSignals.authFailSpikeEntities Examples.fsSum4 0 = [] ∧
    BuildSignals.authFailSpikeEntities Examples.fsSum6 0 = ["web01"] := by
  have hiff : ∀ (fs : List BuildSignals.FeatureRow) (now : Int) (e : String),
      e ∈ BuildSignals.currentEntities fs now →
      (e ∈ BuildSignals.authFailSpikeEntities fs now ↔
        (5 ≤ BuildSignals.currentSum fs now e ∧
         3 * BuildSignals.baselineAvg fs now e + 5 <
           BuildSignals.currentSum fs now e)) := by
    intro fs now e he
    rw [BuildSignals.authFailSpikeEntities, List.mem_filter]
    simp only [decide_eq_true_eq, BuildSignals.spikeCondition, he, true_and]
    constructor
    · rintro ⟨h1, h2⟩
      exact ⟨h1, by linarith⟩
    · rintro ⟨h1, h2⟩
      exact ⟨h1, by linarith⟩
  have hbase : ∀ (fs : List BuildSignals.FeatureRow) (now : Int) (e : String),
      BuildSignals.baselineRows fs now e = [] →
      BuildSignals.baselineAvg fs now e = 0 := by
    intro fs now e h
    rw [BuildSignals.baselineAvg, h]
    simp
  refine ⟨hiff, hbase, ?_, ?_⟩
  · have hce : BuildSignals.currentEntities Examples.fsSum4 0 = ["web01"] := by decide
    have hsum : BuildSignals.currentSum Examples.fsSum4 0 "web01" = 4 := by
      rw [BuildSignals.currentSum]
      have : BuildSignals.currentRows Examples.fsSum4 0 "web01" = Examples.fsSum4 := by
        decide
      rw [this]
      simp [Examples.fsSum4]
    rw [BuildSignals.authFailSpikeEntities, hce]
    rw [List.filter_eq_nil_iff]
    intro a ha
    simp only [List.mem_singleton] at ha
    subst ha
    simp only [decide_eq_true_eq, BuildSignals.spikeCondition, hsum]
    rintro ⟨h1, _⟩
    norm_num at h1
  · have hce : BuildSignals.currentEntities Examples.fsSum6 0 = ["web01"] := by decide
    have hsum : BuildSignals.currentSum Examples.fsSum6 0 "web01" = 6 := by
      rw [BuildSignals.currentSum]
      have : BuildSignals.currentRows Examples.fsSum6 0 "web01" = Examples.fsSum6 := by
        decide
      rw [this]
      simp [Examples.fsSum6]
    have hbrows : BuildSignals.baselineRows Examples.fsSum6 0 "web01" = [] := by decide
    rw [BuildSignals.authFailSpikeEntities, hce]
    have hcond : BuildSignals.spikeCondition
        (BuildSignals.currentSum Examples.fsSum6 0 "web01")
        (BuildSignals.baselineAvg Examples.fsSum6 0 "web01") := by
      rw [BuildSignals.spikeCondition, hsum, hbase _ _ _ hbrows]
      norm_num
    simp [hcond]

/-- Witness for C1 at the sum-6 inputs: web01 is a scanned entity and
the iff holds for it. -/
theorem C1_spike_threshold_witness :
    ("web01" ∈ BuildSignals.currentEntities Examples.fsSum6 0) ∧
    ("web01" ∈ BuildSignals.authFailSpikeEntities Examples.fsSum6 0 ↔
      (5 ≤ BuildSignals.currentSum Examples.fsSum6 0 "web01" ∧
       3 * BuildSignals.baselineAvg Examples.fsSum6 0 "web01" + 5 <
         BuildSignals.currentSum Examples.fsSum6 0 "web01")) :=
  ⟨by decide, C1_spike_threshold.1 Examples.fsSum6 0 "web01" (by decide)⟩

/-! ## Claim C8: feature rollup convergence -/

namespace Features

theorem find?_map_key (g : FRow → FRow)
    (hg : ∀ x, conflictKey (g x) = conflictKey x) (l : List FRow)
    (k : Int × Int × String × String × String × String) :
    (l.map g).find? (fun x => conflictKey x = k) =
      (l.find? (fun x => conflictKey x = k)).map g := by
  induction l with
  | nil => rfl
  | cons x xs ih =>
    rw [List.map_cons, List.find?_cons, List.find?_cons]
    by_cases hx : conflictKey x = k
    · have hgx : conflictKey (g x) = k := by rw [hg, hx]
      simp [hx, hgx]
    · have hgx : ¬ (conflictKey (g x) = k) := by rw [hg]; exact hx
      simp [hx, hgx, ih]

theorem valueAt_upsertRow (store : List FRow) (r : FRow)
    (k : Int × Int × String × String × String × String) :
    valueAt (upsertRow store r) k =
      if k = conflictKey r then some r.value else valueAt store k := by
  rw [upsertRow]
  by_cases hany : store.any (fun x => conflictKey x = conflictKey r) = true
  · rw [if_pos hany]
    have hg : ∀ x : FRow, conflictKey (if conflictKey x = conflictKey r then
        { x with value := r.value, n_events := r.n_events } else x) =
        conflictKey x := by
      intro x
      by_cases hx : conflictKey x = conflictKey r
      · rw [if_pos hx]
        rfl
      · rw [if_neg hx]
    rw [valueAt, find?_map_key _ hg]
    cases hf : store.find? (fun x => conflictKey x = k) with
    | none =>
      by_cases hk : k = conflictKey r
      · exfalso
        rw [List.any_eq_true] at hany
        obtain ⟨y, hy, hyk⟩ := hany
        have := List.find?_eq_none.mp hf y hy
        rw [← hk] at hyk
        simpa using absurd hyk (by simpa using this)
      · rw [if_neg hk, valueAt, hf]
        rfl
    | some x =>
      have hxk : conflictKey x = k := by
        have := List.find?_some hf
        simpa using this
      by_cases hk : k = conflictKey r
      · have hxr : conflictKey x = conflictKey r := by rw [hxk, hk]
        rw [if_pos hk]
        simp [hxr]
      · have hxr : ¬ (conflictKey x = conflictKey r) := by
          rw [hxk]; exact hk
        rw [if_neg hk, valueAt, hf]
        simp [hxr]
  · rw [if_neg hany]
    rw [valueAt, List.find?_append]
    by_cases hk : k = conflictKey r
    · have hnone : store.find? (fun x => conflictKey x = k) = none := by
        cases hf : store.find? (fun x => conflictKey x = k) with
        | none => rfl
        | some x =>
          exfalso
          apply hany
          rw [List.any_eq_true]
          refine ⟨x, List.mem_of_find?_eq_some hf, ?_⟩
          have := List.find?_some hf
          rw [hk] at this
          exact this
      rw [hnone]
      have hrk : conflictKey r = k := hk.symm
      simp [List.find?, hrk, if_pos hk]
    · rw [if_neg hk]
      cases hf : store.find? (fun x => conflictKey x = k) with
      | some x => simp [hf, valueAt]
      | none =>
        have hrk : ¬ (conflictKey r = k) := fun h => hk h.symm
        simp [hf, valueAt, List.find?, hrk]

theorem lastWrite_cons (r : FRow) (rs : List FRow)
    (k : Int × Int × String × String × String × String) :
    lastWrite (r :: rs) k =
      match lastWrite rs k with
      | some v => some v
      | none => if conflictKey r = k then some r.value else none := by
  rw [lastWrite, lastWrite, List.reverse_cons, List.find?_append]
  cases hf : rs.reverse.find? (fun x => conflictKey x = k) with
  | some x => simp
  | none =>
    by_cases hr : conflictKey r = k
    · simp [List.find?, hr]
    · simp [List.find?, hr]

theorem valueAt_upsertRows (rows : List FRow) (store : List FRow)
    (k : Int × Int × String × String × String × String) :
    valueAt (upsertRows store rows) k =
      match lastWrite rows k with
      | some v => some v
      | none => valueAt store k := by
  induction rows generalizing store with
  | nil => simp [upsertRows, lastWrite]
  | cons r rs ih =>
    rw [upsertRows, List.foldl_cons]
    have h2 := ih (upsertRow store r)
    rw [upsertRows] at h2
    rw [h2, lastWrite_cons, valueAt_upsertRow]
    cases hl : lastWrite rs k with
    | some v => simp
    | none =>
      simp only []
      by_cases hr : conflictKey r = k
      · rw [if_pos hr.symm, if_pos hr]
      · rw [if_neg (fun h : k = conflictKey r => hr h.symm), if_neg hr]

theorem lastWrite_append (a b : List FRow)
    (k : Int × Int × String × String × String × String) :
    lastWrite (a ++ b) k =
      match lastWrite b k with
      | some v => some v
      | none => lastWrite a k := by
  rw [lastWrite, lastWrite, lastWrite, List.reverse_append, List.find?_append]
  cases hf : b.reverse.find? (fun x => conflictKey x = k) with
  | some x => simp
  | none => simp

theorem valueAt_rollup (store : List FRow) (rules : List AggRule)
    (lbs : Int) (evs : List NEvent)
    (k : Int × Int × String × String × String × String) :
    valueAt (rollup_features store rules lbs evs) k =
      match lastWrite (allQueryRows rules lbs evs) k with
      | some v => some v
      | none => valueAt store k := by
  induction rules generalizing store with
  | nil => simp [rollup_features, allQueryRows, lastWrite]
  | cons ru rs ih =>
    rw [rollup_features, List.foldl_cons]
    have h2 := ih (upsertRows store (computeRows ru lbs evs))
    rw [rollup_features] at h2
    rw [h2]
    have h3 : allQueryRows (ru :: rs) lbs evs =
        computeRows ru lbs evs ++ allQueryRows rs lbs evs := by
      rw [allQueryRows, allQueryRows, List.map_cons, List.flatten_cons]
    rw [h3, lastWrite_append, valueAt_upsertRows]
    cases hl : lastWrite (allQueryRows rs lbs evs) k with
    | some v => simp
    | none => simp

end Features

/-- C8: running the feature aggregator a second time over an unchanged
event set in the same lookback window leaves every feature-bucket
value exactly as after the first run — the upsert overwrites rather
than increments. -/
theorem C8_rollup_idempotent :
    ∀ (store : List Features.FRow) (lookbackStart : Int)
      (evs : List Features.NEvent)
      (k : Int × Int × String × String × String × String),
      Features.valueAt
        (Features.rollup_features
          (Features.rollup_features store Features.allRules lookbackStart evs)
          Features.allRules lookbackStart evs) k =
      Features.valueAt
        (Features.rollup_features store Features.allRules lookbackStart evs) k := by
  intro store lbs evs k
  rw [Features.valueAt_rollup, Features.valueAt_rollup]
  cases hl : Features.lastWrite (Features.allQueryRows Features.allRules lbs evs) k with
  | some v => simp
  | none => simp

/-! ## Claim C9: per-record error isolation -/

/-- C9: the try/except of run_batch only guards normalize_event; the
event-time fallback below it runs unguarded, so a batch holding a
record with no event time and a NULL raw payload is aborted whole by
that record (the model returns the AttributeError the interpreter
raises on the NULL payload lookup), even though the record itself
normalizes cleanly — the remaining records' work is discarded. -/
theorem C9_batch_abort :
    Normalize.run_batch [] [Examples.exRow4625, Examples.badRow] 1000 =
      .error "AttributeError" ∧
    (Normalize.normalize_event Examples.badRow).isOk = true := by
  constructor
  · rfl
  · rfl

/-! ## Claim C4: normalization runs insert each raw event at most once -/

namespace Normalize

theorem processRow_raw_id (r : RawRow) (row : NormalizedRow)
    (h : processRow r = .ok (some row)) : row.raw_id = r.id := by
  rw [processRow] at h
  split at h
  · cases h
  · cases h
  · rename_i out heq
    split at h
    · injection h with h2
      injection h2 with h3
      rw [← h3]
      rfl
    · split at h
      · injection h with h2
        injection h2 with h3
        rw [← h3]
        rfl
      · split at h
        · split at h
          · injection h with h2
            injection h2 with h3
            rw [← h3]
            rfl
          · cases h
        · cases h

theorem insert_subset (st : List NormalizedRow) (row : NormalizedRow) :
    st ⊆ insertRowIfAbsent st row := by
  rw [insertRowIfAbsent]
  by_cases hany : st.any (fun n => n.raw_id = row.raw_id) = true
  · rw [if_pos hany]
    exact fun a ha => ha
  · rw [if_neg hany]
    exact List.subset_append_left st [row]

theorem foldl_insert_subset (rows : List NormalizedRow) (st : List NormalizedRow) :
    st ⊆ rows.foldl insertRowIfAbsent st := by
  induction rows generalizing st with
  | nil => exact fun a ha => ha
  | cons x xs ih =>
    rw [List.foldl_cons]
    exact fun a ha => ih (insertRowIfAbsent st x) (insert_subset st x ha)

theorem foldl_insert_covers (rows : List NormalizedRow) (st : List NormalizedRow)
    (row : NormalizedRow) (h : row ∈ rows) :
    ∃ n ∈ rows.foldl insertRowIfAbsent st, n.raw_id = row.raw_id := by
  induction rows generalizing st with
  | nil => cases h
  | cons x xs ih =>
    rw [List.foldl_cons]
    rcases List.mem_cons.mp h with hx | hx
    · subst hx
      rw [insertRowIfAbsent]
      by_cases hany : st.any (fun n => n.raw_id = row.raw_id) = true
      · rw [if_pos hany]
        rw [List.any_eq_true] at hany
        obtain ⟨n, hn, hnid⟩ := hany
        exact ⟨n, foldl_insert_subset xs st hn, by simpa using hnid⟩
      · rw [if_neg hany]
        exact ⟨row, foldl_insert_subset xs (st ++ [row]) (by simp), rfl⟩
    · exact ih (insertRowIfAbsent st x) hx

theorem insert_nodup (st : List NormalizedRow) (row : NormalizedRow)
    (h : (st.map NormalizedRow.raw_id).Nodup) :
    ((insertRowIfAbsent st row).map NormalizedRow.raw_id).Nodup := by
  rw [insertRowIfAbsent]
  by_cases hany : st.any (fun n => n.raw_id = row.raw_id) = true
  · rw [if_pos hany]
    exact h
  · rw [if_neg hany]
    rw [List.map_append, List.map_singleton]
    rw [List.nodup_append]
    refine ⟨h, List.nodup_singleton _, ?_⟩
    intro a ha
    simp only [List.mem_singleton]
    intro hb
    rw [Bool.not_eq_true, List.any_eq_false] at hany
    rw [List.mem_map] at ha
    obtain ⟨n, hn, hna⟩ := ha
    exact hany n hn (by simp [hna, hb])

theorem foldl_insert_nodup (rows : List NormalizedRow) (st : List NormalizedRow)
    (h : (st.map NormalizedRow.raw_id).Nodup) :
    (((rows.foldl insertRowIfAbsent st).map NormalizedRow.raw_id)).Nodup := by
  induction rows generalizing st with
  | nil => exact h
  | cons x xs ih =>
    rw [List.foldl_cons]
    exact ih (insertRowIfAbsent st x) (insert_nodup st x h)

theorem mapM_ok_mem (l : List RawRow) (out : List (Option NormalizedRow))
    (h : l.mapM processRow = Except.ok out) :
    ∀ r ∈ l, ∃ o, processRow r = .ok o ∧ o ∈ out := by
  induction l generalizing out with
  | nil =>
    intro r hr
    cases hr
  | cons x xs ih =>
    rw [List.mapM_cons] at h
    cases hfx : processRow x with
    | error e => rw [hfx] at h; cases h
    | ok y =>
      rw [hfx] at h
      cases hxs : xs.mapM processRow with
      | error e =>
        rw [hxs] at h
        cases h
      | ok ys =>
        rw [hxs] at h
        injection h with h2
        subst h2
        intro r hr
        rcases List.mem_cons.mp hr with hr | hr
        · subst hr
          exact ⟨y, hfx, by simp⟩
        · obtain ⟨o, ho, hmem⟩ := ih ys hxs r hr
          exact ⟨o, ho, by simp [hmem]⟩

theorem mapM_all_none (l : List RawRow)
    (h : ∀ r ∈ l, processRow r = .ok none) :
    l.mapM processRow = .ok (List.replicate l.length none) := by
  induction l with
  | nil => rfl
  | cons x xs ih =>
    rw [List.mapM_cons, h x (by simp), ih (fun r hr => h r (by simp [hr]))]
    rfl

theorem reduceOption_replicate_none (n : Nat) :
    (List.replicate n (none : Option NormalizedRow)).reduceOption = [] := by
  induction n with
  | zero => rfl
  | succ m ih => rw [List.replicate_succ, List.reduceOption_cons_of_none, ih]

end Normalize

/-- C4: when every raw row that still lacks a normalized row fits in
one batch, a run keeps raw_id unique in the durable store (at most one
NormalizedEvent per RawEvent), and running normalization again over
the same raw set inserts zero new rows — the store is returned
unchanged. -/
theorem C4_normalize_idempotent :
    ∀ (store store1 : List Normalize.NormalizedRow)
      (raws : List Normalize.RawRow) (lim : Nat),
      (store.map Normalize.NormalizedRow.raw_id).Nodup →
      (raws.map Normalize.RawRow.id).Nodup →
      (raws.filter (fun r =>
        !store.any (fun n => n.raw_id = r.id))).length ≤ lim →
      Normalize.run_batch store raws lim = .ok store1 →
      ((store1.map Normalize.NormalizedRow.raw_id).Nodup ∧
       Normalize.run_batch store1 raws lim = .ok store1) := by
  intro store store1 raws lim hnodupS hnodupR hcov hrun
  rw [Normalize.run_batch] at hrun
  rw [List.take_of_length_le hcov] at hrun
  cases hm : (raws.filter (fun r =>
      !store.any (fun n => n.raw_id = r.id))).mapM Normalize.processRow with
  | error e =>
    rw [hm] at hrun
    cases hrun
  | ok processed =>
    rw [hm] at hrun
    simp only [bind, Except.bind, pure, Except.pure] at hrun
    injection hrun with hrun2
    have hstore1 : store1 =
        processed.reduceOption.foldl Normalize.insertRowIfAbsent store := hrun2.symm
    have hsub : store ⊆ store1 := by
      rw [hstore1]
      exact Normalize.foldl_insert_subset _ store
    refine ⟨?_, ?_⟩
    · rw [hstore1]
      exact Normalize.foldl_insert_nodup _ store hnodupS
    · -- the second run selects only rows the first run skipped
      have hP1P : ∀ r : Normalize.RawRow,
          (!store1.any (fun n => n.raw_id = r.id)) = true →
          (!store.any (fun n => n.raw_id = r.id)) = true := by
        intro r h1
        rw [Bool.not_eq_eq_eq_not, Bool.not_true, List.any_eq_false] at h1 ⊢
        intro n hn
        exact h1 n (hsub hn)
      have hfilter_sub : raws.filter (fun r =>
          !store1.any (fun n => n.raw_id = r.id)) =
          (raws.filter (fun r => !store.any (fun n => n.raw_id = r.id))).filter
            (fun r => !store1.any (fun n => n.raw_id = r.id)) := by
        rw [List.filter_filter]
        apply List.filter_congr
        intro r hr
        by_cases h1 : (!store1.any (fun n => n.raw_id = r.id)) = true
        · simp [h1, hP1P r h1]
        · simp only [Bool.not_eq_true] at h1
          simp [h1]
      have hcov1 : (raws.filter (fun r =>
          !store1.any (fun n => n.raw_id = r.id))).length ≤ lim := by
        rw [hfilter_sub]
        exact le_trans (List.length_filter_le _ _) hcov
      rw [Normalize.run_batch, List.take_of_length_le hcov1]
      have hallnone : ∀ r ∈ raws.filter (fun r =>
          !store1.any (fun n => n.raw_id = r.id)),
          Normalize.processRow r = .ok none := by
        intro r hr
        have hrP1 : (!store1.any (fun n => n.raw_id = r.id)) = true :=
          (List.mem_filter.mp hr).2
        have hrP : r ∈ raws.filter (fun r =>
            !store.any (fun n => n.raw_id = r.id)) :=
          List.mem_filter.mpr ⟨(List.mem_filter.mp hr).1, hP1P r hrP1⟩
        obtain ⟨o, ho, hmem⟩ := Normalize.mapM_ok_mem _ _ hm r hrP
        cases o with
        | none => exact ho
        | some row =>
          exfalso
          have hrow : row ∈ processed.reduceOption := by
            rw [List.reduceOption_mem_iff]
            exact hmem
          have hid : row.raw_id = r.id := Normalize.processRow_raw_id r row ho
          obtain ⟨n, hn, hnid⟩ :=
            Normalize.foldl_insert_covers processed.reduceOption store row hrow
          rw [← hstore1] at hn
          rw [Bool.not_eq_eq_eq_not, Bool.not_true, List.any_eq_false] at hrP1
          exact hrP1 n hn (by simp [hnid, hid])
      rw [Normalize.mapM_all_none _ hallnone]
      simp only [bind, Except.bind, pure, Except.pure]
      rw [Normalize.reduceOption_replicate_none]
      rfl

/-- Witness for C4: one raw row, one run, the second run returns the
store unchanged. -/
theorem C4_normalize_idempotent_witness :
    ((Examples.store4625.map Normalize.NormalizedRow.raw_id).Nodup ∧
     Normalize.run_batch Examples.store4625 [Examples.exRow4625] 1000 =
       .ok Examples.store4625) :=
  C4_normalize_idempotent [] Examples.store4625 [Examples.exRow4625] 1000
    (by decide) (by decide) (by decide) (by rfl)

/-! ## Claim C5: severity scale (character-level groundwork) -/

namespace Normalize

theorem charOfNat_toNat (m : Nat) (h : m < 55296) : (Char.ofNat m).toNat = m := by
  have hv : m.isValidChar := Or.inl h
  rw [Char.ofNat, dif_pos hv]
  rfl

theorem toLower_eq_or (c : Char) :
    Char.toLower c = c ∨
    (97 ≤ (Char.toLower c).toNat ∧ (Char.toLower c).toNat ≤ 122) := by
  by_cases h : c.toNat ≥ 65 ∧ c.toNat ≤ 90
  · right
    have h2 : c.toNat + 32 < 55296 := by omega
    simp only [Char.toLower, h, and_self, if_true]
    rw [charOfNat_toNat _ h2]
    omega
  · left
    simp only [Char.toLower, h, if_false]

theorem toLower_digit (c : Char) (h : (Char.toLower c).isDigit = true) :
    Char.toLower c = c := by
  rcases toLower_eq_or c with h2 | h2
  · exact h2
  · exfalso
    rw [Char.isDigit] at h
    simp only [Bool.and_eq_true, decide_eq_true_eq] at h
    have h48 : 48 ≤ (Char.toLower c).toNat := by
      have := h.1
      exact this
    have h57 : (Char.toLower c).toNat ≤ 57 := by
      have := h.2
      exact this
    omega

theorem toLower_dash (c : Char) (h : Char.toLower c = '-') : c = '-' := by
  rcases toLower_eq_or c with h2 | h2
  · rw [← h2, h]
  · exfalso
    rw [h] at h2
    revert h2
    decide

theorem toLower_plus (c : Char) (h : Char.toLower c = '+') : c = '+' := by
  rcases toLower_eq_or c with h2 | h2
  · rw [← h2, h]
  · exfalso
    rw [h] at h2
    revert h2
    decide

theorem isWs_toLower (c : Char) : isWs (Char.toLower c) = isWs c := by
  rcases toLower_eq_or c with h2 | h2
  · rw [h2]
  · have hlow : isWs (Char.toLower c) = false := by
      rw [isWs]
      have h1 : ¬ (Char.toLower c = ' ') := by
        intro h; rw [h] at h2; revert h2; decide
      have h2b : ¬ (Char.toLower c = '\t') := by
        intro h; rw [h] at h2; revert h2; decide
      have h3 : ¬ (Char.toLower c = '\n') := by
        intro h; rw [h] at h2; revert h2; decide
      have h4 : ¬ (Char.toLower c = '\r') := by
        intro h; rw [h] at h2; revert h2; decide
      have h5 : ¬ (Char.toLower c = '\x0b') := by
        intro h; rw [h] at h2; revert h2; decide
      have h6 : ¬ (Char.toLower c = '\x0c') := by
        intro h; rw [h] at h2; revert h2; decide
      simp [h1, h2b, h3, h4, h5, h6]
    have horig : isWs c = false := by
      rcases toLower_eq_or c with h3 | h3
      · rw [← h3]; exact hlow
      · cases hor : isWs c
        · rfl
        · exfalso
          rw [isWs] at hor
          simp only [Bool.or_eq_true, decide_eq_true_eq] at hor
          rcases hor with ((((hc | hc) | hc) | hc) | hc) | hc <;>
            (rw [hc] at h2; revert h2; decide)
    rw [hlow, horig]

end Normalize

namespace Normalize

theorem isEmpty_map (f : Char → Char) (l : List Char) :
    (l.map f).isEmpty = l.isEmpty := by
  cases l <;> rfl

theorem dropTrailingWs_map_toLower (l : List Char) :
    dropTrailingWs (l.map Char.toLower) = (dropTrailingWs l).map Char.toLower := by
  induction l with
  | nil => rfl
  | cons c cs ih =>
    rw [List.map_cons]
    simp only [dropTrailingWs]
    rw [ih, isEmpty_map, isWs_toLower]
    by_cases h : ((dropTrailingWs cs).isEmpty && isWs c) = true
    · rw [if_pos h, if_pos h]
      rfl
    · rw [if_neg h, if_neg h, List.map_cons]

theorem trimChars_map_toLower (l : List Char) :
    trimChars (l.map Char.toLower) = (trimChars l).map Char.toLower := by
  rw [trimChars, trimChars]
  have hdw : (l.map Char.toLower).dropWhile isWs =
      (l.dropWhile isWs).map Char.toLower := by
    induction l with
    | nil => rfl
    | cons c cs ih =>
      rw [List.map_cons, List.dropWhile_cons, List.dropWhile_cons, isWs_toLower]
      by_cases h : isWs c = true
      · simp only [h, if_true]
        exact ih
      · simp only [h]
        simp only [Bool.false_eq_true, if_false, List.map_cons]
  rw [hdw, dropTrailingWs_map_toLower]

theorem dropTrailingWs_idem (l : List Char) :
    dropTrailingWs (dropTrailingWs l) = dropTrailingWs l := by
  induction l with
  | nil => rfl
  | cons c cs ih =>
    simp only [dropTrailingWs]
    by_cases h : ((dropTrailingWs cs).isEmpty && isWs c) = true
    · rw [if_pos h]
      rfl
    · rw [if_neg h]
      simp only [dropTrailingWs]
      rw [ih]
      rw [if_neg h]

theorem dropWhile_ws_dropTrailing (l : List Char)
    (h : l.dropWhile isWs = l) :
    (dropTrailingWs l).dropWhile isWs = dropTrailingWs l := by
  cases l with
  | nil => rfl
  | cons c cs =>
    have hc : isWs c = false := by
      rw [List.dropWhile_cons] at h
      by_cases hcc : isWs c = true
      · rw [if_pos hcc] at h
        exfalso
        have hlen : ∀ (m : List Char), (m.dropWhile isWs).length ≤ m.length := by
          intro m
          induction m with
          | nil => simp
          | cons a t iht =>
            rw [List.dropWhile_cons]
            by_cases ha : isWs a = true
            · rw [if_pos ha]
              simp only [List.length_cons]
              omega
            · rw [if_neg ha]
        have := congrArg List.length h
        have hle := hlen cs
        simp only [List.length_cons] at this
        omega
      · exact Bool.eq_false_iff.mpr hcc
    simp only [dropTrailingWs]
    by_cases hrest : ((dropTrailingWs cs).isEmpty && isWs c) = true
    · rw [if_pos hrest]
      rfl
    · rw [if_neg hrest, List.dropWhile_cons, hc]
      simp

theorem trimChars_idem (l : List Char) :
    trimChars (trimChars l) = trimChars l := by
  rw [trimChars, trimChars]
  have h1 : (l.dropWhile isWs).dropWhile isWs = l.dropWhile isWs :=
    List.dropWhile_idempotent _ _
  rw [dropWhile_ws_dropTrailing _ h1, dropTrailingWs_idem]

theorem map_toLower_digits (cs : List Char)
    (h : (cs.map Char.toLower).all Char.isDigit = true) :
    cs.map Char.toLower = cs ∧ cs.all Char.isDigit = true := by
  induction cs with
  | nil => exact ⟨rfl, rfl⟩
  | cons c rest ih =>
    rw [List.map_cons, List.all_cons, Bool.and_eq_true] at h
    obtain ⟨hc, hrest⟩ := h
    obtain ⟨ih1, ih2⟩ := ih hrest
    have hcl : Char.toLower c = c := toLower_digit c hc
    refine ⟨?_, ?_⟩
    · rw [List.map_cons, ih1, hcl]
    · rw [List.all_cons, ih2, Bool.and_true, ← hcl]
      exact hc

theorem pyIntChars_map_toLower_none (l : List Char)
    (h : pyIntChars l = none) : pyIntChars (l.map Char.toLower) = none := by
  cases hp : pyIntChars (l.map Char.toLower) with
  | none => rfl
  | some k =>
    exfalso
    cases l with
    | nil => cases hp
    | cons c cs =>
      rw [List.map_cons, pyIntChars] at hp
      rw [pyIntChars] at h
      by_cases hdash : Char.toLower c = '-'
      · have hcd : c = '-' := toLower_dash c hdash
        rw [if_pos hdash] at hp
        rw [if_pos hcd] at h
        by_cases hcond : (!(cs.map Char.toLower).isEmpty &&
            (cs.map Char.toLower).all Char.isDigit) = true
        · rw [Bool.and_eq_true] at hcond
          obtain ⟨hne, hall⟩ := hcond
          obtain ⟨heq, hall2⟩ := map_toLower_digits cs hall
          rw [isEmpty_map] at hne
          rw [if_pos (by rw [Bool.and_eq_true]; exact ⟨hne, hall2⟩)] at h
          cases h
        · rw [if_neg hcond] at hp
          cases hp
      · by_cases hplus : Char.toLower c = '+'
        · have hcd : c = '+' := toLower_plus c hplus
          rw [if_neg hdash, if_pos hplus] at hp
          have hcd2 : ¬ (c = '-') := by
            intro hcc
            rw [hcc] at hcd
            cases hcd
          rw [if_neg hcd2, if_pos hcd] at h
          by_cases hcond : (!(cs.map Char.toLower).isEmpty &&
              (cs.map Char.toLower).all Char.isDigit) = true
          · rw [Bool.and_eq_true] at hcond
            obtain ⟨hne, hall⟩ := hcond
            obtain ⟨heq, hall2⟩ := map_toLower_digits cs hall
            rw [isEmpty_map] at hne
            rw [if_pos (by rw [Bool.and_eq_true]; exact ⟨hne, hall2⟩)] at h
            cases h
          · rw [if_neg hcond] at hp
            cases hp
        · rw [if_neg hdash, if_neg hplus] at hp
          by_cases hcond : ((Char.toLower c :: cs.map Char.toLower).all
              Char.isDigit) = true
          · have hcond2 : (((c :: cs).map Char.toLower).all Char.isDigit) = true := by
              rw [List.map_cons]
              exact hcond
            obtain ⟨heq, hall2⟩ := map_toLower_digits (c :: cs) hcond2
            have hcnd : ¬ (c = '-') := by
              intro hcc
              apply hdash
              rw [hcc]
              decide
            have hcnp : ¬ (c = '+') := by
              intro hcc
              apply hplus
              rw [hcc]
              decide
            rw [if_neg hcnd, if_neg hcnp, if_pos hall2] at h
            cases h
          · rw [if_neg hcond] at hp
            cases hp

end Normalize

namespace Normalize

theorem goodSev_none : GoodSev .none := by rw [GoodSev]; decide

theorem goodSev_int1 : GoodSev (.int 1) := by rw [GoodSev]; decide

theorem goodSev_int2 : GoodSev (.int 2) := by rw [GoodSev]; decide

theorem goodSev_int4 : GoodSev (.int 4) := by rw [GoodSev]; decide

theorem goodSev_int7 : GoodSev (.int 7) := by rw [GoodSev]; decide

theorem goodSev_int0 : GoodSev (.int 0) := by rw [GoodSev]; decide

theorem goodSev_err : GoodSev (.str "error") := by rw [GoodSev]; decide

theorem goodSev_warn : GoodSev (.str "warn") := by rw [GoodSev]; decide

theorem goodSev_str_of_pyInt_none (s : String) (h : pyIntOfString s = none) :
    GoodSev (.str s) := by
  rw [GoodSev, polishSeverity]
  by_cases hne : sevTruthy (.str s) = true
  · rw [if_pos hne, polishToken]
    have hdata : (lowerStr (trimStr (sevStr (.str s)))).data =
        (trimChars s.data).map Char.toLower := rfl
    split_ifs
    case _ => simp [SevSet]
    case _ => simp [SevSet]
    case _ => simp [SevSet]
    case _ => simp [SevSet]
    case _ =>
      have hnone : pyIntOfString (lowerStr (trimStr (sevStr (.str s)))) = none := by
        rw [pyIntOfString, hdata, trimChars_map_toLower, trimChars_idem]
        exact pyIntChars_map_toLower_none _ h
      rw [hnone]
      simp [SevSet]
  · rw [if_neg hne]
    simp [SevSet]

theorem pyIntChars_cons (c : Char) (ds : List Char) :
    pyIntChars (c :: ds) =
      if c = '-' then
        (if !ds.isEmpty && ds.all Char.isDigit then some (-(digitsVal ds : Int))
         else none)
      else if c = '+' then
        (if !ds.isEmpty && ds.all Char.isDigit then some ((digitsVal ds : Int))
         else none)
      else
        (if (c :: ds).all Char.isDigit then some ((digitsVal (c :: ds) : Int))
         else none) := rfl

theorem pyInt_headed_none (s : String) (c : Char) (rest : List Char)
    (hdata : s.data = c :: rest) (hdash : ¬ (c = '-')) (hplus : ¬ (c = '+'))
    (hdig : c.isDigit = false) (hws : isWs c = false) :
    pyIntOfString s = none := by
  rw [pyIntOfString, hdata, trimChars, List.dropWhile_cons, hws]
  simp only [Bool.false_eq_true, if_false]
  simp only [dropTrailingWs, hws, Bool.and_false, Bool.false_eq_true, if_false]
  rw [pyIntChars_cons, if_neg hdash, if_neg hplus, List.all_cons, hdig]
  simp

theorem goodSev_pyStr_of_intFail (v : JVal) (hT : pyTruthy v = true)
    (hI : pyIntOfJVal v = none) : GoodSev (.str (pyStr v)) := by
  cases v with
  | null => cases hT
  | bool b => cases hI
  | num n => cases hI
  | str s =>
    have hps : pyStr (JVal.str s) = s := by rw [pyStr]
    rw [hps]
    exact goodSev_str_of_pyInt_none s hI
  | arr xs =>
    apply goodSev_str_of_pyInt_none
    apply pyInt_headed_none _ '[' (((pyStrList xs : String) ++ "]").data)
    · rw [pyStr]
      show (("[" ++ pyStrList xs) ++ "]").data = '[' :: ((pyStrList xs ++ "]").data)
      rw [String.data_append, String.data_append, String.data_append]
      rfl
    · decide
    · decide
    · decide
    · decide
  | obj fs =>
    apply goodSev_str_of_pyInt_none
    apply pyInt_headed_none _ '\x7b' (((pyStrFields fs : String) ++ "\x7d").data)
    · rw [pyStr]
      show (("\x7b" ++ pyStrFields fs) ++ "\x7d").data =
        '\x7b' :: ((pyStrFields fs ++ "\x7d").data)
      rw [String.data_append, String.data_append, String.data_append]
      rfl
    · decide
    · decide
    · decide
    · decide

end Normalize

namespace Normalize

theorem applyWinExtract_severity (out : NormAcc) (ex : WinExtract) :
    (applyWinExtract out ex).severity = out.severity := rfl

theorem winTypeStep_severity (rawFields : List (String × JVal)) (out : NormAcc)
    (h : GoodSev out.severity) : GoodSev (winTypeStep rawFields out).severity := by
  rw [winTypeStep]
  split_ifs with h1
  · lift_lets
    intro wt
    split_ifs <;> first
      | exact h
      | exact goodSev_int7
      | exact goodSev_int4
      | exact goodSev_int1
  · exact h

theorem goodSev_levBranch (ruleFs : List (String × JVal)) (o : NormAcc)
    (hg : GoodSev o.severity) :
    GoodSev ((if pyTruthy (jgetD ruleFs "level") then
      match pyIntOfJVal (jgetD ruleFs "level") with
      | some ilev =>
        if 12 ≤ ilev then { o with severity := .int 7 }
        else if 7 ≤ ilev then { o with severity := .int 4 }
        else { o with severity := .int 1 }
      | none => { o with severity := .str (pyStr (jgetD ruleFs "level")) }
     else o).severity) := by
  by_cases hlev : pyTruthy (jgetD ruleFs "level") = true
  · rw [if_pos hlev]
    cases hi : pyIntOfJVal (jgetD ruleFs "level") with
    | some ilev =>
      simp only [hi]
      split_ifs
      · exact goodSev_int7
      · exact goodSev_int4
      · exact goodSev_int1
    | none =>
      simp only [hi]
      exact goodSev_pyStr_of_intFail _ hlev hi
  · rw [if_neg hlev]
    exact hg

theorem goodSev_wrap (b : Bool) (c : Prop) [Decidable c] (o : NormAcc)
    (v : Option String) (h : GoodSev o.severity) :
    GoodSev ((if b = true then
        { (if c then { o with rule_id := v } else o) with event_kind := "alert" }
      else (if c then { o with rule_id := v } else o)).severity) := by
  by_cases hb : b = true <;> by_cases hc : c <;> simp only [hb, hc] <;>
    simp only [if_pos, if_neg, if_true, if_false, Bool.false_eq_true] <;>
    exact h

theorem ruleBlockStep_severity (rawFields : List (String × JVal)) (out out2 : NormAcc)
    (hg : GoodSev out.severity) (h : ruleBlockStep rawFields out = .ok out2) :
    GoodSev out2.severity := by
  rw [ruleBlockStep] at h
  split at h
  · split at h
    · rename_i ruleFs heq
      cases hsig : strFieldE (jgetD ruleFs "description") with
      | error e =>
        rw [hsig] at h
        simp only [bind, Except.bind] at h
        cases h
      | ok sig =>
        rw [hsig] at h
        simp only [bind, Except.bind] at h
        cases hin : pyInE "authentication_failed"
            (match jlookup ruleFs "groups" with
             | some v => v
             | none => JVal.arr []) with
        | error e =>
          rw [hin] at h
          simp only [bind, Except.bind] at h
          cases h
        | ok b =>
          rw [hin] at h
          simp only [bind, Except.bind, pure, Except.pure] at h
          injection h with h2
          subst h2
          exact goodSev_wrap b _ _ _ (goodSev_levBranch ruleFs _ hg)
    · simp only [pure, Except.pure] at h
      injection h with h2
      rw [← h2]
      exact hg
  · simp only [pure, Except.pure] at h
    injection h with h2
    rw [← h2]
    exact hg

theorem eventCodeStep_severity (rawFields : List (String × JVal)) (o : NormAcc) :
    (eventCodeStep rawFields o).severity = o.severity := by
  rw [eventCodeStep]
  split_ifs <;> rfl

theorem winSigFallbackStep_severity (ex : WinExtract) (o : NormAcc) :
    (winSigFallbackStep ex o).severity = o.severity := by
  rw [winSigFallbackStep]
  split_ifs <;> rfl

theorem ruleIdSpecialsStep_severity (o : NormAcc)
    (hg : GoodSev o.severity) : GoodSev (ruleIdSpecialsStep o).severity := by
  simp only [ruleIdSpecialsStep]
  split_ifs <;> first | exact hg | exact goodSev_int2

theorem labBurstStep_severity (o : NormAcc)
    (hg : GoodSev o.severity) : GoodSev (labBurstStep o).severity := by
  simp only [labBurstStep]
  split_ifs <;> first | exact hg | exact goodSev_int7

theorem winBranch_severity (rawFields : List (String × JVal)) (message : JVal)
    (out0 out2 : NormAcc) (hg : GoodSev out0.severity)
    (h : winBranch rawFields message out0 = .ok out2) : GoodSev out2.severity := by
  rw [winBranch] at h
  cases hex : extract_winevent_message message with
  | error e =>
    rw [hex] at h
    simp only [bind, Except.bind] at h
    cases h
  | ok ex =>
    rw [hex] at h
    simp only [bind, Except.bind] at h
    cases hrb : ruleBlockStep rawFields (winTypeStep rawFields (applyWinExtract out0 ex)) with
    | error e =>
      rw [hrb] at h
      simp only [bind, Except.bind] at h
      cases h
    | ok out1 =>
      rw [hrb] at h
      simp only [bind, Except.bind, pure, Except.pure] at h
      injection h with h2
      subst h2
      have h1 : GoodSev (winTypeStep rawFields (applyWinExtract out0 ex)).severity :=
        winTypeStep_severity _ _ (by rw [applyWinExtract_severity]; exact hg)
      have h2 : GoodSev out1.severity := ruleBlockStep_severity _ _ _ h1 hrb
      apply labBurstStep_severity
      apply ruleIdSpecialsStep_severity
      rw [winSigFallbackStep_severity, eventCodeStep_severity]
      exact h2

theorem nginxApplyStep_severity (rawTextV : JVal) (out0 o : NormAcc)
    (h : nginxApplyStep rawTextV out0 = .ok o) : o.severity = out0.severity := by
  cases rawTextV
  case str s =>
    simp only [nginxApplyStep, bind, Except.bind, pure, Except.pure] at h
    injection h with h2
    rw [← h2]
    split <;> rfl
  all_goals
    simp only [nginxApplyStep, bind, Except.bind, pure, Except.pure] at h
    split at h
    · cases h
    · injection h with h2
      rw [← h2]

theorem clientIpStep_severity (rawFields : List (String × JVal)) (o o2 : NormAcc)
    (h : clientIpStep rawFields o = .ok o2) : o2.severity = o.severity := by
  rw [clientIpStep] at h
  split at h
  · cases hcl : strFieldE (jgetD rawFields "clientip") with
    | error e =>
      rw [hcl] at h
      simp only [bind, Except.bind] at h
      cases h
    | ok v =>
      rw [hcl] at h
      simp only [bind, Except.bind, pure, Except.pure] at h
      injection h with h2
      rw [← h2]
  · simp only [pure, Except.pure] at h
    injection h with h2
    rw [← h2]

theorem juiceHostStep_severity (rawFields : List (String × JVal)) (o o2 : NormAcc)
    (h : juiceHostStep rawFields o = .ok o2) : o2.severity = o.severity := by
  rw [juiceHostStep] at h
  split at h
  · split at h
    · simp only [pure, Except.pure] at h
      injection h with h2
      rw [← h2]
    · split at h
      · cases hv : strFieldE (jgetD rawFields "dvc") with
        | error e =>
          rw [hv] at h
          simp only [bind, Except.bind] at h
          cases h
        | ok v =>
          rw [hv] at h
          simp only [bind, Except.bind, pure, Except.pure] at h
          injection h with h2
          rw [← h2]
      · split at h
        · cases hv : strFieldE (jgetD rawFields "container_name") with
          | error e =>
            rw [hv] at h
            simp only [bind, Except.bind] at h
            cases h
          | ok v =>
            rw [hv] at h
            simp only [bind, Except.bind, pure, Except.pure] at h
            injection h with h2
            rw [← h2]
        · simp only [pure, Except.pure] at h
          injection h with h2
          rw [← h2]
  · simp only [pure, Except.pure] at h
    injection h with h2
    rw [← h2]

theorem juiceWebStep_severity (rawFields : List (String × JVal)) (rawTextV : JVal)
    (out0 out2 : NormAcc) (h : juiceWebStep rawFields rawTextV out0 = .ok out2) :
    out2.severity = out0.severity := by
  rw [juiceWebStep] at h
  cases hn : nginxApplyStep rawTextV out0 with
  | error e =>
    rw [hn] at h
    simp only [bind, Except.bind] at h
    cases h
  | ok oA =>
    rw [hn] at h
    simp only [bind, Except.bind] at h
    cases hc : clientIpStep rawFields oA with
    | error e =>
      rw [hc] at h
      simp only [bind, Except.bind] at h
      cases h
    | ok oB =>
      rw [hc] at h
      simp only [bind, Except.bind] at h
      rw [juiceHostStep_severity rawFields oB out2 h,
        clientIpStep_severity rawFields oA oB hc,
        nginxApplyStep_severity rawTextV out0 oA hn]

theorem appLogStep_severity (message : JVal) (o o2 : NormAcc)
    (hg : GoodSev o.severity) (h : appLogStep message o = .ok o2) :
    GoodSev o2.severity := by
  rw [appLogStep] at h
  split at h
  · split at h
    · simp only [bind, Except.bind, pure, Except.pure] at h
      split at h
      · injection h with h2
        rw [← h2]
        exact goodSev_err
      · split at h
        · injection h with h2
          rw [← h2]
          exact goodSev_warn
        · injection h with h2
          rw [← h2]
          split <;> exact hg
    · simp only [bind, Except.bind] at h
      cases h
  · simp only [pure, Except.pure] at h
    injection h with h2
    rw [← h2]
    exact hg

theorem juiceBranch_severity (rawFields : List (String × JVal))
    (rawTextV message : JVal) (out0 out2 : NormAcc) (hg : GoodSev out0.severity)
    (h : juiceBranch rawFields rawTextV message out0 = .ok out2) :
    GoodSev out2.severity := by
  rw [juiceBranch] at h
  cases hw : juiceWebStep rawFields rawTextV out0 with
  | error e =>
    rw [hw] at h
    simp only [bind, Except.bind] at h
    cases h
  | ok oA =>
    rw [hw] at h
    simp only [bind, Except.bind] at h
    refine appLogStep_severity message oA out2 ?_ h
    rw [juiceWebStep_severity rawFields rawTextV out0 oA hw]
    exact hg

theorem ipApplyStep_severity (payload : String) (o : NormAcc) :
    (ipApplyStep payload o).severity = o.severity := by
  rw [ipApplyStep]
  split <;> rfl

theorem alertJsonStep_severity (rawFields : List (String × JVal)) (o o2 : NormAcc)
    (h : alertJsonStep rawFields o = .ok o2) : o2.severity = o.severity := by
  rw [alertJsonStep] at h
  simp only [bind, Except.bind] at h
  cases h1 : jgetE (jgetD rawFields "alert") "signature" with
  | error e =>
    rw [h1] at h
    simp only [bind, Except.bind] at h
    cases h
  | ok sigV =>
    rw [h1] at h
    simp only [bind, Except.bind] at h
    cases h2 : jgetE (jgetD rawFields "alert") "signature_id" with
    | error e =>
      rw [h2] at h
      simp only [bind, Except.bind] at h
      cases h
    | ok sidV =>
      rw [h2] at h
      simp only [bind, Except.bind] at h
      cases h3 : strFieldE sigV with
      | error e =>
        rw [h3] at h
        simp only [bind, Except.bind] at h
        cases h
      | ok sg =>
        rw [h3] at h
        simp only [bind, Except.bind] at h
        cases h4 : strFieldE (jgetD rawFields "src_ip") with
        | error e =>
          rw [h4] at h
          simp only [bind, Except.bind] at h
          cases h
        | ok src =>
          rw [h4] at h
          simp only [bind, Except.bind] at h
          cases h5 : strFieldE (jgetD rawFields "dest_ip") with
          | error e =>
            rw [h5] at h
            simp only [bind, Except.bind] at h
            cases h
          | ok dst =>
            rw [h5] at h
            simp only [bind, Except.bind, pure, Except.pure] at h
            injection h with hrec
            rw [← hrec]

theorem zenarmorStep_severity (payload : String) (o o2 : NormAcc)
    (hg : GoodSev o.severity) (h : zenarmorStep payload o = .ok o2) :
    GoodSev o2.severity := by
  rw [zenarmorStep] at h
  split at h
  · split at h
    · rename_i rest heq
      split at h
      · rename_i zfs heq2
        simp only [bind, Except.bind, pure, Except.pure] at h
        split at h
        · cases hs : strFieldE (jgetD zfs "src_ip") with
          | error e =>
            rw [hs] at h
            simp only [bind, Except.bind] at h
            cases h
          | ok v =>
            rw [hs] at h
            simp only [bind, Except.bind, pure, Except.pure] at h
            split at h
            · cases hd : strFieldE (jgetD zfs "dst_ip") with
              | error e =>
                rw [hd] at h
                simp only [bind, Except.bind] at h
                cases h
              | ok w =>
                rw [hd] at h
                simp only [bind, Except.bind, pure, Except.pure] at h
                injection h with h2
                rw [← h2]
                split
                · exact goodSev_int4
                · exact hg
            · injection h with h2
              rw [← h2]
              split
              · exact goodSev_int4
              · exact hg
        · split at h
          · cases hd : strFieldE (jgetD zfs "dst_ip") with
            | error e =>
              rw [hd] at h
              simp only [bind, Except.bind] at h
              cases h
            | ok w =>
              rw [hd] at h
              simp only [bind, Except.bind, pure, Except.pure] at h
              injection h with h2
              rw [← h2]
              split
              · exact goodSev_int4
              · exact hg
          · injection h with h2
            rw [← h2]
            split
            · exact goodSev_int4
            · exact hg
      · simp only [pure, Except.pure] at h
        injection h with h2
        rw [← h2]
        exact hg
    · simp only [pure, Except.pure] at h
      injection h with h2
      rw [← h2]
      exact hg
  · simp only [pure, Except.pure] at h
    injection h with h2
    rw [← h2]
    exact hg

theorem suricataStep_severity (payload : String) (o : NormAcc)
    (hg : GoodSev o.severity) : GoodSev (suricataStep payload o).severity := by
  simp only [suricataStep]
  split
  · split <;> first
      | exact goodSev_int7
      | exact goodSev_int4
      | exact goodSev_int1
      | (split <;> split <;> exact hg)
  · exact hg

theorem zenSyslogStep_severity (payload : String) (o : NormAcc) :
    (zenSyslogStep payload o).severity = o.severity := by
  rw [zenSyslogStep]
  split
  · split <;> rfl
  · rfl

theorem opnSyslogSteps_severity (payload : String) (o o2 : NormAcc)
    (hg : GoodSev o.severity) (h : opnSyslogSteps payload o = .ok o2) :
    GoodSev o2.severity := by
  rw [opnSyslogSteps] at h
  simp only [bind, Except.bind] at h
  cases hz : zenarmorStep payload (suricataStep payload o) with
  | error e =>
    rw [hz] at h
    simp only [bind, Except.bind] at h
    cases h
  | ok oA =>
    rw [hz] at h
    simp only [bind, Except.bind, pure, Except.pure] at h
    injection h with h2
    rw [← h2, zenSyslogStep_severity]
    exact zenarmorStep_severity payload _ oA (suricataStep_severity payload o hg) hz

theorem eventTypeSigStep_severity (rawFields : List (String × JVal)) (o o2 : NormAcc)
    (h : eventTypeSigStep rawFields o = .ok o2) : o2.severity = o.severity := by
  rw [eventTypeSigStep] at h
  split at h
  · cases hs : strFieldE (jgetD rawFields "event_type") with
    | error e =>
      rw [hs] at h
      simp only [bind, Except.bind] at h
      cases h
    | ok s =>
      rw [hs] at h
      simp only [bind, Except.bind, pure, Except.pure] at h
      injection h with h2
      rw [← h2]
  · simp only [pure, Except.pure] at h
    injection h with h2
    rw [← h2]

theorem opnBranch_severity (rawFields : List (String × JVal)) (rawTextV : JVal)
    (out0 out2 : NormAcc) (hg : GoodSev out0.severity)
    (h : opnBranch rawFields rawTextV out0 = .ok out2) : GoodSev out2.severity := by
  rw [opnBranch] at h
  cases hp : pyOr (jgetD rawFields "_raw") (pyOr rawTextV (.str "")) with
  | str s =>
    rw [hp] at h
    simp only [bind, Except.bind, pure, Except.pure] at h
    have hgA : GoodSev (ipApplyStep s out0).severity := by
      rw [ipApplyStep_severity]
      exact hg
    split at h
    · split at h
      · cases h
      · rename_i oA ha
        rw [eventTypeSigStep_severity rawFields oA out2 h,
          alertJsonStep_severity rawFields (ipApplyStep s out0) oA ha]
        exact hgA
    · split at h
      · cases h
      · rename_i oA hb
        rw [eventTypeSigStep_severity rawFields oA out2 h]
        exact opnSyslogSteps_severity s (ipApplyStep s out0) oA hgA hb
  | null =>
    rw [hp] at h
    simp only [bind, Except.bind] at h
    cases h
  | bool b =>
    rw [hp] at h
    simp only [bind, Except.bind] at h
    cases h
  | num n =>
    rw [hp] at h
    simp only [bind, Except.bind] at h
    cases h
  | arr xs =>
    rw [hp] at h
    simp only [bind, Except.bind] at h
    cases h
  | obj fs =>
    rw [hp] at h
    simp only [bind, Except.bind] at h
    cases h

theorem polishHost_severity (o : NormAcc) :
    (polishHost o).severity = o.severity := by
  simp only [polishHost]
  split
  · split_ifs <;> rfl
  · rfl

theorem infraStep_severity (o : NormAcc) :
    (infraStep o).severity = o.severity ∨ (infraStep o).severity = .int 0 := by
  rw [infraStep]
  split
  · split_ifs
    · right
      rfl
    · left
      rfl
  · left
    rfl

theorem ruleIdFallbackStep_severity (v k : String) (o : NormAcc) :
    (ruleIdFallbackStep v k o).severity = o.severity := by
  rw [ruleIdFallbackStep]
  split_ifs <;> rfl

theorem sigFallbackStep_severity (v k : String) (o : NormAcc) :
    (sigFallbackStep v k o).severity = o.severity := by
  rw [sigFallbackStep]
  split_ifs <;> rfl

theorem sanitizeStep_severity (o : NormAcc) :
    (sanitizeStep o).severity = o.severity := rfl

theorem extrasStep_severity (rawFields : List (String × JVal)) (o : NormAcc) :
    (extrasStep rawFields o).severity = o.severity := rfl

theorem polishSevStep_severity (o : NormAcc) :
    (polishSevStep o).severity = .int (polishSeverity o.severity) := rfl

theorem finalPolish_severity (v k : String) (fs : List (String × JVal))
    (o : NormAcc) (hg : GoodSev o.severity) :
    ∃ n, (finalPolish v k fs o).severity = SevVal.int n ∧ n ∈ SevSet := by
  rcases infraStep_severity (sanitizeStep (polishHost (polishSevStep o))) with hc | hc
  · refine ⟨polishSeverity o.severity, ?_, hg⟩
    rw [finalPolish, extrasStep_severity, sigFallbackStep_severity,
      ruleIdFallbackStep_severity, hc, sanitizeStep_severity, polishHost_severity,
      polishSevStep_severity]
  · refine ⟨0, ?_, by decide⟩
    rw [finalPolish, extrasStep_severity, sigFallbackStep_severity,
      ruleIdFallbackStep_severity, hc]

theorem normalize_event_severity (row : RawRow) (out : NormAcc)
    (h : normalize_event row = .ok (some out)) :
    ∃ n, out.severity = SevVal.int n ∧ n ∈ SevSet := by
  rw [normalize_event] at h
  simp only [bind, Except.bind, pure, Except.pure] at h
  split at h
  · injection h with h2
    exact Option.noConfusion h2
  · split at h
    · -- raw_text truthy: rawTextV is the raw_text value
      split at h
      · cases h
      · split at h
        · split at h
          · split at h
            · cases h
            · rename_i o1 hw
              injection h with h2
              injection h2 with h3
              subst h3
              exact finalPolish_severity _ _ _ o1
                (winBranch_severity _ _ _ o1 goodSev_none hw)
          · split at h
            · split at h
              · cases h
              · rename_i o1 hj
                injection h with h2
                injection h2 with h3
                subst h3
                exact finalPolish_severity _ _ _ o1
                  (juiceBranch_severity _ _ _ _ o1 goodSev_none hj)
            · split at h
              · split at h
                · cases h
                · rename_i o1 ho
                  injection h with h2
                  injection h2 with h3
                  subst h3
                  exact finalPolish_severity _ _ _ o1
                    (opnBranch_severity _ _ _ o1 goodSev_none ho)
              · injection h with h2
                injection h2 with h3
                subst h3
                exact finalPolish_severity _ _ _ _ goodSev_none
        · cases h
    · -- raw_text falsy: rawTextV falls back to the _raw field
      split at h
      · cases h
      · split at h
        · cases h
        · split at h
          · split at h
            · split at h
              · cases h
              · rename_i o1 hw
                injection h with h2
                injection h2 with h3
                subst h3
                exact finalPolish_severity _ _ _ o1
                  (winBranch_severity _ _ _ o1 goodSev_none hw)
            · split at h
              · split at h
                · cases h
                · rename_i o1 hj
                  injection h with h2
                  injection h2 with h3
                  subst h3
                  exact finalPolish_severity _ _ _ o1
                    (juiceBranch_severity _ _ _ _ o1 goodSev_none hj)
              · split at h
                · split at h
                  · cases h
                  · rename_i o1 ho
                    injection h with h2
                    injection h2 with h3
                    subst h3
                    exact finalPolish_severity _ _ _ o1
                      (opnBranch_severity _ _ _ o1 goodSev_none ho)
                · injection h with h2
                  injection h2 with h3
                  subst h3
                  exact finalPolish_severity _ _ _ _ goodSev_none
          · cases h

end Normalize

/-! ## C5: the final severity scale -/

/-- C5 counterexample: the spec fixes the final severity scale as
{0, 1, 4, 7}, but the Windows EventCode 4625 path writes severity 2,
which the uniform polish passes through as the integer 2: the raw
event exRow4625 normalizes to severity 2, outside the claimed scale. -/
theorem C5_severity_counterexample :
    Normalize.severityResult Examples.exRow4625 = some 2 ∧
      (2 : Int) ∉ ([0, 1, 4, 7] : List Int) :=
  ⟨rfl, by decide⟩

/-- C5 (amended): every event normalize_event keeps (not dropped as
noise, no exception raised) ends with an integer severity in the scale
{0, 1, 2, 4, 7}: the uniform polish coerces every accumulated severity
onto the 0/1/4/7 scale with unknown text defaulting to 0, except that
the 4625 special case contributes the additional ordinal 2. -/
theorem C5_severity_scale (row : Normalize.RawRow) (out : Normalize.NormAcc)
    (h : Normalize.normalize_event row = .ok (some out)) :
    ∃ n, out.severity = Normalize.SevVal.int n ∧ n ∈ Normalize.SevSet :=
  Normalize.normalize_event_severity row out h

/-- C5 witness: the amended theorem applied to the concrete 4625 raw
event. -/
theorem C5_severity_scale_witness :
    ∃ n, Examples.normOut4625.severity = Normalize.SevVal.int n ∧
      n ∈ Normalize.SevSet :=
  C5_severity_scale Examples.exRow4625 Examples.normOut4625 (by rfl)
